import Mathlib

/-!
Shallow embedding of `jsonschema2md` (`src/jsonschema2md/__init__.py`), a
JSON-Schema to Markdown converter, together with theorems settling the
claims about it.

Modelling conventions:
* JSON values are modelled by the inductive `Json`; numbers are modelled as
  integers (no claim depends on float formatting).
* Python strings are Lean `String`s; `str.lower`, `str.lstrip`, slicing and
  friends are modelled character-wise below (on the ASCII fragment that the
  fixed strings of the program use).
* Python exceptions are modelled by `Except PyError _`, where `PyError`
  records the exception class and message.  Raising an exception aborts the
  traversal, so no output lines survive past it, exactly as in the source.
* The recursive tree walker `Parser._parse_object` and the recursive
  gatherer `gather_props` take an explicit fuel argument (the recursion of Python itself is bounded too: exhaustion raises `RecursionError`).  Fuel-free
  wrappers instantiate fuel with `jsize` of the input, which dominates the
  recursion depth.
-/

set_option maxRecDepth 4000

/-- Python exception: class name (`TypeError`, `ValueError`, ...) plus message. -/
structure PyError where
  cls : String
  msg : String
deriving Repr, DecidableEq

instance {ε α : Type} [DecidableEq ε] [DecidableEq α] : DecidableEq (Except ε α)
  | .error e, .error f => decidable_of_iff (e = f) (by simp)
  | .ok a, .ok b => decidable_of_iff (a = b) (by simp)
  | .error _, .ok _ => isFalse (by simp)
  | .ok _, .error _ => isFalse (by simp)

/-- JSON values as produced by `json.load`.  Object fields are kept in
insertion order (Python dicts preserve it); keys are unique after parsing. -/
inductive Json where
  | null : Json
  | bool (b : Bool) : Json
  | num (n : Int) : Json
  | str (s : String) : Json
  | arr (xs : List Json) : Json
  | obj (kvs : List (String × Json)) : Json

mutual

/-- Structural size of a JSON value, used as recursion fuel below. -/
def jsize : Json → Nat
  | .null => 1
  | .bool _ => 1
  | .num _ => 1
  | .str _ => 1
  | .arr xs => 1 + jsizeList xs
  | .obj kvs => 1 + jsizeObj kvs

/-- Structural size of a JSON array body. -/
def jsizeList : List Json → Nat
  | [] => 0
  | x :: xs => 1 + jsize x + jsizeList xs

/-- Structural size of a JSON object body. -/
def jsizeObj : List (String × Json) → Nat
  | [] => 0
  | (_, v) :: kvs => 1 + jsize v + jsizeObj kvs

end

/-- Dictionary lookup (`obj[key]` on a dict whose keys are unique). -/
def jfind : List (String × Json) → String → Option Json
  | [], _ => none
  | (k, v) :: rest, key => if k = key then some v else jfind rest key

/-- Python `dict.get(key, default)`. -/
def jGetD (kvs : List (String × Json)) (key : String) (dflt : Json) : Json :=
  match jfind kvs key with
  | some v => v
  | none => dflt

/-- Python `type(v).__name__` for parsed-JSON values. -/
def pyTypeName : Json → String
  | .null => "NoneType"
  | .bool _ => "bool"
  | .num _ => "int"
  | .str _ => "str"
  | .arr _ => "list"
  | .obj _ => "dict"

/-- Python truthiness (`if v:`) of a parsed-JSON value. -/
def jTruthy : Json → Bool
  | .null => false
  | .bool b => b
  | .num n => n != 0
  | .str s => !s.isEmpty
  | .arr xs => !xs.isEmpty
  | .obj kvs => !kvs.isEmpty

/-- Numeric view used by Python `==` (`True == 1`, `False == 0`). -/
def pyNumVal : Json → Option Int
  | .num n => some n
  | .bool b => some (if b then 1 else 0)
  | _ => none

/-- Python `==` on parsed-JSON values (fueled; lists compare pointwise,
dicts compare key sets and values irrespective of order). -/
def pyEqF : Nat → Json → Json → Bool
  | 0, _, _ => false
  | fuel+1, a, b =>
    match pyNumVal a, pyNumVal b with
    | some x, some y => x == y
    | _, _ =>
      match a, b with
      | .null, .null => true
      | .str s, .str t => s == t
      | .arr xs, .arr ys =>
          xs.length == ys.length && (xs.zip ys).all (fun pr => pyEqF fuel pr.1 pr.2)
      | .obj xs, .obj ys =>
          xs.length == ys.length &&
            xs.all (fun kv =>
              match jfind ys kv.1 with
              | some w => pyEqF fuel kv.2 w
              | none => false)
      | _, _ => false

/-- Python `==` with adequate fuel. -/
def pyEq (a b : Json) : Bool := pyEqF (jsize a + jsize b + 1) a b

/-- Boolean substring test. -/
def strContains (hay needle : String) : Bool := decide (needle.data <:+: hay.data)

/-- Python `x in container` for a string `x`: key membership for dicts,
`==`-membership for lists, substring for strings; other values raise. -/
def pyContains (needle : String) (container : Json) : Except PyError Bool :=
  match container with
  | .obj kvs => .ok (kvs.any (fun kv => kv.1 == needle))
  | .arr xs => .ok (xs.any (fun e => pyEq e (.str needle)))
  | .str s => .ok (strContains s needle)
  | v => .error ⟨"TypeError", "argument of type \x27" ++ pyTypeName v ++ "\x27 is not iterable"⟩

/-- Python `container[key]` for a string key. -/
def jGetItem (v : Json) (key : String) : Except PyError Json :=
  match v with
  | .obj kvs =>
      match jfind kvs key with
      | some x => .ok x
      | none => .error ⟨"KeyError", key⟩
  | .str _ => .error ⟨"TypeError", "string indices must be integers"⟩
  | .arr _ => .error ⟨"TypeError", "list indices must be integers or slices, not str"⟩
  | v => .error ⟨"TypeError", "\x27" ++ pyTypeName v ++ "\x27 object is not subscriptable"⟩

/-- Python `for x in v`: the sequence of iterates (dicts yield their keys,
strings their characters); non-iterables raise. -/
def pyIterElems (v : Json) : Except PyError (List Json) :=
  match v with
  | .arr xs => .ok xs
  | .obj kvs => .ok (kvs.map (fun kv => Json.str kv.1))
  | .str s => .ok (s.data.map (fun c => Json.str (String.singleton c)))
  | v => .error ⟨"TypeError", "\x27" ++ pyTypeName v ++ "\x27 object is not iterable"⟩

/-- Whitespace stripped by no-argument `str.strip` family. -/
def pyIsSpace (c : Char) : Bool :=
  c = ' ' || c = '\t' || c = '\n' || c = '\r' || c = '\x0b' || c = '\x0c'

/-- Python `str.lstrip()`. -/
def pyLstrip (s : String) : String := String.mk (s.data.dropWhile pyIsSpace)

/-- Python `str.rstrip()`. -/
def pyRstrip (s : String) : String := String.mk (s.data.reverse.dropWhile pyIsSpace).reverse

/-- Python slice `s[:n]`. -/
def strTake (s : String) (n : Nat) : String := String.mk (s.data.take n)

/-- Python slice `s[:-n]` for `n ≤ len(s)`. -/
def strDropRight (s : String) (n : Nat) : String := String.mk (s.data.take (s.data.length - n))

/-- Python `s.endswith(t)`. -/
def pyEndsWith (s t : String) : Bool := t.data.isSuffixOf s.data

/-- ASCII fragment of `str.lower` (the configuration strings are ASCII). -/
def pyLowerChar (c : Char) : Char :=
  if 65 ≤ c.toNat ∧ c.toNat ≤ 90 then Char.ofNat (c.toNat + 32) else c

/-- ASCII fragment of `str.upper`. -/
def pyUpperChar (c : Char) : Char :=
  if 97 ≤ c.toNat ∧ c.toNat ≤ 122 then Char.ofNat (c.toNat - 32) else c

/-- Python `str.lower()`. -/
def pyLower (s : String) : String := String.mk (s.data.map pyLowerChar)

/-- Python `str.capitalize()`: first character uppercased, rest lowercased. -/
def pyCapitalize (s : String) : String :=
  match s.data with
  | [] => ""
  | c :: rest => String.mk (pyUpperChar c :: rest.map pyLowerChar)

/-- Python `str(n)` for an int. -/
def intStr (n : Int) : String := toString n

/-- Comma-space join used by Python container repr. -/
def joinComma (parts : List String) : String := String.intercalate (", ") parts

/-- Python `repr` of a parsed-JSON value (fueled through containers).
String escaping is not modelled: no string rendered by this development
needs escapes. -/
def pyReprF : Nat → Json → String
  | 0, _ => ""
  | fuel+1, v =>
    match v with
    | .null => "None"
    | .bool b => if b then "True" else "False"
    | .num n => intStr n
    | .str s => "\x27" ++ s ++ "\x27"
    | .arr xs => "[" ++ joinComma (xs.map (pyReprF fuel)) ++ "]"
    | .obj kvs =>
        "\x7b" ++
          joinComma (kvs.map (fun kv => "\x27" ++ kv.1 ++ "\x27: " ++ pyReprF fuel kv.2)) ++
          "\x7d"

/-- Python `str(v)` / f-string interpolation of a parsed-JSON value:
plain text for strings, `repr`-based rendering for containers. -/
def pyStr (v : Json) : String :=
  match v with
  | .str s => s
  | _ => pyReprF (jsize v + 1) v

/-- Lowercase hex digit. -/
def hexDigitL (n : Nat) : Char :=
  if n < 10 then Char.ofNat (48 + n) else Char.ofNat (87 + n)

/-- Uppercase hex digit. -/
def hexDigitU (n : Nat) : Char :=
  if n < 10 then Char.ofNat (48 + n) else Char.ofNat (55 + n)

/-- Four lowercase hex digits, as in `json.dumps` \u escapes. -/
def hex4 (n : Nat) : String :=
  String.mk [hexDigitL (n / 4096 % 16), hexDigitL (n / 256 % 16),
             hexDigitL (n / 16 % 16), hexDigitL (n % 16)]

/-- One character as escaped by `json.dumps` (default `ensure_ascii=True`). -/
def jsonEscapeChar (c : Char) : String :=
  if c = '"' then "\\\""
  else if c = '\\' then "\\\\"
  else if c = '\n' then "\\n"
  else if c = '\t' then "\\t"
  else if c = '\r' then "\\r"
  else if c.toNat < 32 ∨ 126 < c.toNat then
    if c.toNat < 65536 then "\\u" ++ hex4 c.toNat
    else
      "\\u" ++ hex4 (55296 + (c.toNat - 65536) / 1024) ++
        "\\u" ++ hex4 (56320 + (c.toNat - 65536) % 1024)
  else String.singleton c

/-- Body of a JSON string literal as dumped. -/
def jsonStrBody (s : String) : String := String.join (s.data.map jsonEscapeChar)

/-- Python `json.dumps(v)` with default separators. -/
def jsonDumpsF : Nat → Json → String
  | 0, _ => ""
  | fuel+1, v =>
    match v with
    | .null => "null"
    | .bool b => if b then "true" else "false"
    | .num n => intStr n
    | .str s => "\"" ++ jsonStrBody s ++ "\""
    | .arr xs => "[" ++ joinComma (xs.map (jsonDumpsF fuel)) ++ "]"
    | .obj kvs =>
        "\x7b" ++
          joinComma (kvs.map (fun kv => "\"" ++ jsonStrBody kv.1 ++ "\": " ++ jsonDumpsF fuel kv.2)) ++
          "\x7d"

/-- Python `json.dumps(v)` with adequate fuel. -/
def jsonDumps (v : Json) : String := jsonDumpsF (jsize v + 1) v

/-- Python `json.dumps(v, indent=4)` (separators become `(",", ": ")`),
at a given indentation level. -/
def jsonDumpsIndentF : Nat → Nat → Json → String
  | 0, _, _ => ""
  | fuel+1, level, v =>
    match v with
    | .arr [] => "[]"
    | .obj [] => "\x7b\x7d"
    | .arr xs =>
        "[\n" ++
          String.intercalate (",\n")
            (xs.map (fun e => String.mk (List.replicate ((level + 1) * 4) ' ') ++
              jsonDumpsIndentF fuel (level + 1) e)) ++
          "\n" ++ String.mk (List.replicate (level * 4) ' ') ++ "]"
    | .obj kvs =>
        "\x7b\n" ++
          String.intercalate (",\n")
            (kvs.map (fun kv => String.mk (List.replicate ((level + 1) * 4) ' ') ++
              "\"" ++ jsonStrBody kv.1 ++ "\": " ++ jsonDumpsIndentF fuel (level + 1) kv.2)) ++
          "\n" ++ String.mk (List.replicate (level * 4) ' ') ++ "\x7d"
    | other => jsonDumpsF (fuel+1) other

/-- Python `json.dumps(v, indent=4)` with adequate fuel. -/
def jsonDumpsIndent (v : Json) : String := jsonDumpsIndentF (jsize v + 1) 0 v

/-- Characters `urllib.parse.quote` leaves unescaped (always-safe set plus
the default `safe="/"`). -/
def quoteSafeChar (c : Char) : Bool :=
  ('A' ≤ c && c ≤ 'Z') || ('a' ≤ c && c ≤ 'z') || ('0' ≤ c && c ≤ '9') ||
    c = '_' || c = '.' || c = '-' || c = '~' || c = '/'

/-- UTF-8 bytes of a code point. -/
def utf8Bytes (n : Nat) : List Nat :=
  if n < 128 then [n]
  else if n < 2048 then [192 + n / 64, 128 + n % 64]
  else if n < 65536 then [224 + n / 4096, 128 + n / 64 % 64, 128 + n % 64]
  else [240 + n / 262144, 128 + n / 4096 % 64, 128 + n / 64 % 64, 128 + n % 64]

/-- Percent-encoding of one byte, uppercase hex as `urllib.parse.quote` emits. -/
def pctByte (b : Nat) : String := String.mk ['%', hexDigitU (b / 16), hexDigitU (b % 16)]

/-- Python `urllib.parse.quote(s)` with the default safe set. -/
def pyQuote (s : String) : String :=
  String.join (s.data.map (fun c =>
    if quoteSafeChar c then String.singleton c
    else String.join ((utf8Bytes c.toNat).map pctByte)))

/-- Python `os.path.basename` for forward-slash paths. -/
def pyBasename (s : String) : String :=
  String.mk (s.data.foldl (fun acc c => if c = '/' then [] else acc ++ [c]) [])

/-- Python `io.StringIO(s).readlines()`: split after each newline, keeping it. -/
def splitLinesAux : List Char → List Char → List String
  | [], acc => if acc.isEmpty then [] else [String.mk acc.reverse]
  | c :: rest, acc =>
      if c = '\n' then String.mk (acc.reverse ++ ['\n']) :: splitLinesAux rest []
      else splitLinesAux rest (c :: acc)

/-- Python `readlines` on a string. -/
def splitLinesKeep (s : String) : List String := splitLinesAux s.data []

/-- Python `s.replace(pat, rep)` (left to right, non-overlapping), for a
non-empty pattern; the fuel is the length of the subject. -/
def replaceAux (pat rep : List Char) : Nat → List Char → List Char
  | 0, l => l
  | fuel+1, l =>
      if pat.isPrefixOf l then rep ++ replaceAux pat rep fuel (l.drop pat.length)
      else
        match l with
        | [] => []
        | c :: rest => c :: replaceAux pat rep fuel rest

/-- Python `s.replace(pat, rep)`. -/
def strReplace (s pat rep : String) : String :=
  String.mk (replaceAux pat.data rep.data s.data.length s.data)

/-- Re-match of `re.search(r"[.?!;]$", s)`: a final `.?!;`, possibly before
one trailing newline (Python `$` also matches just before a final newline). -/
def descEndingOk (s : String) : Bool :=
  match s.data.reverse with
  | [] => false
  | c :: rest =>
      (c = '.' || c = '?' || c = '!' || c = ';') ||
        (c = '\n' &&
          match rest with
          | c2 :: _ => c2 = '.' || c2 = '?' || c2 = '!' || c2 = ';'
          | [] => false)

/-- Indentation string `" " * n`. -/
def indentStr (n : Nat) : String := String.mk (List.replicate n ' ')

/-- Class attribute `Parser.tab_size` (line 41). -/
def tab_size : Nat := 2

/-- Configuration state of a constructed `jsonschema2md.Parser`. -/
structure Parser where
  examples_as_yaml : Bool
  show_examples : String
deriving Repr, DecidableEq

/-- The list `valid_show_examples_options` (line 58). -/
def valid_show_examples_options : List String := ["all", "object", "properties"]

/-- Default of the `examples_as_yaml` parameter of `Parser.__init__` (line 43). -/
def examples_as_yaml_default : Bool := false

/-- Default of the `show_examples` parameter of `Parser.__init__` (line 43). -/
def show_examples_default : String := "all"

/-- Message of the `ValueError` raised on an invalid `show_examples` value
(lines 63-66); the valid list is rendered by Python list repr. -/
def show_examples_error_msg (lowered : String) : String :=
  "`show_examples` option should be one of `[\x27all\x27, \x27object\x27, \x27properties\x27]`; `" ++
    lowered ++ "` was passed."

/-- Parser.__init__ (lines 43-66): lowercase the `show_examples` value,
store it if valid, raise `ValueError` otherwise. -/
def Parser.init (examples_as_yaml : Bool) (show_examples : String) : Except PyError Parser :=
  let lowered := pyLower show_examples
  if lowered ∈ valid_show_examples_options then
    .ok ⟨examples_as_yaml, lowered⟩
  else
    .error ⟨"ValueError", show_examples_error_msg lowered⟩

/-- Leading-whitespace width `len(line) - len(line.lstrip())` of a line. -/
def leadingWs (s : String) : Nat := s.length - (pyLstrip s).length

/-- Whether a line is a bullet item: its first two characters after
lstripping are `- ` or `* `. -/
def isBulletItem (s : String) : Bool :=
  strTake (pyLstrip s) 2 = "- " || strTake (pyLstrip s) 2 = "* "

/-- Parser.append_line (lines 163-172).  The Python condition
`not new_lines[-1].lstrip()[:2] not in ["- ", "* "]` parses as
`new_lines[-1].lstrip()[:2] in ["- ", "* "]` (`not (x not in l)`), so the
blank line is inserted when the widths differ AND the previous line IS a
bullet item. -/
def append_line (line : String) (new_lines : List String) : List String :=
  match new_lines.getLast? with
  | some last =>
      let last_indent := leadingWs last
      let indentation := leadingWs line
      if last_indent ≠ indentation ∧ isBulletItem last then
        new_lines ++ ["\n", line]
      else
        new_lines ++ [line]
  | none => new_lines ++ [line]

/-- Sentence list contributed by `minItems`/`maxItems`
(`_construct_description_line`, lines 88-100). -/
def lengthSentence (kvs : List (String × Json)) : List String :=
  match jfind kvs ("minItems"), jfind kvs ("maxItems") with
  | none, none => []
  | some m, none => ["Length must be at least " ++ pyStr m ++ "."]
  | none, some mx => ["Length must be at most " ++ pyStr mx ++ "."]
  | some m, some mx =>
      if pyEq m mx then ["Length must be equal to " ++ pyStr m ++ "."]
      else ["Length must be between " ++ pyStr m ++ " and " ++ pyStr mx ++ " (inclusive)."]

/-- Sentence list contributed by one `{extra}Properties` keyword
(`_construct_description_line`, lines 105-110): Python truthiness of the
value decides Can/Cannot. -/
def extraPropsSentence (kvs : List (String × Json)) (extra : String) : List String :=
  match jfind kvs (extra ++ "Properties") with
  | none => []
  | some v =>
      if jTruthy v then ["Can contain " ++ extra ++ " properties."]
      else ["Cannot contain " ++ extra ++ " properties."]

/-- The `$ref` sentence (`_construct_description_line`, lines 111-116):
strip a trailing `.json`, link to the percent-encoded path plus `.md`
under the basename as title. -/
def refSentence (dest : String) : String :=
  let dest2 := if pyEndsWith dest (".json") then strDropRight dest 5 else dest
  "Includes all of *[" ++ pyBasename dest2 ++ "](" ++ pyQuote dest2 ++ ".md)*."

/-- Sentence list contributed by `type` when `add_type` is set
(`_construct_description_line`, lines 77-79). -/
def typeSentence (kvs : List (String × Json)) (add_type : Bool) : List String :=
  if add_type then
    match jfind kvs ("type") with
    | some t => ["Must be of type *" ++ pyStr t ++ "*."]
    | none => []
  else []

/-- Sentence list contributed by `minimum` (lines 80-81). -/
def minimumSentence (kvs : List (String × Json)) : List String :=
  match jfind kvs ("minimum") with
  | some v => ["Minimum: `" ++ pyStr v ++ "`."]
  | none => []

/-- Sentence list contributed by `exclusiveMinimum` (lines 82-83). -/
def exclusiveMinimumSentence (kvs : List (String × Json)) : List String :=
  match jfind kvs ("exclusiveMinimum") with
  | some v => ["Exclusive minimum: `" ++ pyStr v ++ "`."]
  | none => []

/-- Sentence list contributed by `maximum` (lines 84-85). -/
def maximumSentence (kvs : List (String × Json)) : List String :=
  match jfind kvs ("maximum") with
  | some v => ["Maximum: `" ++ pyStr v ++ "`."]
  | none => []

/-- Sentence list contributed by `exclusiveMaximum` (lines 86-87). -/
def exclusiveMaximumSentence (kvs : List (String × Json)) : List String :=
  match jfind kvs ("exclusiveMaximum") with
  | some v => ["Exclusive maximum: `" ++ pyStr v ++ "`."]
  | none => []

/-- Sentence list contributed by `enum` (lines 101-102). -/
def enumSentence (kvs : List (String × Json)) : List String :=
  match jfind kvs ("enum") with
  | some v => ["Must be one of: `" ++ jsonDumps v ++ "`."]
  | none => []

/-- Sentence list contributed by `const` (lines 103-104). -/
def constSentence (kvs : List (String × Json)) : List String :=
  match jfind kvs ("const") with
  | some v => ["Must be: `" ++ jsonDumps v ++ "`."]
  | none => []

/-- Sentence list contributed by `default` (lines 117-118). -/
def defaultSentence (kvs : List (String × Json)) : List String :=
  match jfind kvs ("default") with
  | some v => ["Default: `" ++ jsonDumps v ++ "`."]
  | none => []

/-- Sentence list contributed by `description` (lines 74-76): the raw text
plus a final period unless it already ends in punctuation; `re.search` on a
non-string value raises `TypeError`, as in Python. -/
def descriptionPart (kvs : List (String × Json)) : Except PyError (List String) :=
  match jfind kvs ("description") with
  | none => .ok []
  | some (Json.str d) => .ok [d ++ (if descEndingOk d then "" else ".")]
  | some _ => .error ⟨"TypeError", "expected string or bytes-like object"⟩

/-- Sentence list contributed by `$ref` (lines 111-116); `.endswith` on a
non-string value raises `AttributeError`, as in Python. -/
def refLinkPart (kvs : List (String × Json)) : Except PyError (List String) :=
  match jfind kvs ("$ref") with
  | none => .ok []
  | some (Json.str dest) => .ok [refSentence dest]
  | some v =>
      .error ⟨"AttributeError",
        "\x27" ++ pyTypeName v ++ "\x27 object has no attribute \x27endswith\x27"⟩

/-- Parser._construct_description_line (lines 68-124), on the key/value
list of the dict of the node, as the concatenation of the per-keyword sentence
lists in source order (description raises first, then `$ref`). -/
def construct_description_line (kvs : List (String × Json)) (add_type : Bool) :
    Except PyError (List String) :=
  descriptionPart kvs >>= fun descPart =>
  refLinkPart kvs >>= fun refPart =>
  pure (descPart ++ typeSentence kvs add_type ++ minimumSentence kvs ++
    exclusiveMinimumSentence kvs ++ maximumSentence kvs ++ exclusiveMaximumSentence kvs ++
    lengthSentence kvs ++ enumSentence kvs ++ constSentence kvs ++
    (extraPropsSentence kvs ("additional") ++ extraPropsSentence kvs ("unevaluated")) ++
    refPart ++ defaultSentence kvs)

/-- Model of the external `yaml.dump(v, sort_keys=False, indent=4)` call.
PyYAML is a third-party library, not part of this repository; this rough
block-style model keeps `_construct_examples` total and is not relied on
by any claim. -/
def yamlDumpF : Nat → Nat → Json → String
  | 0, _, _ => ""
  | fuel+1, level, v =>
    let ind := String.mk (List.replicate (level * 2) ' ')
    match v with
    | .null => ind ++ "null\n"
    | .bool b => ind ++ (if b then "true\n" else "false\n")
    | .num n => ind ++ intStr n ++ "\n"
    | .str s => ind ++ s ++ "\n"
    | .arr [] => ind ++ "[]\n"
    | .obj [] => ind ++ "\x7b\x7d\n"
    | .arr xs => String.join (xs.map (fun e => ind ++ "-\n" ++ yamlDumpF fuel (level+1) e))
    | .obj kvs => String.join (kvs.map (fun kv => ind ++ kv.1 ++ ":\n" ++ yamlDumpF fuel (level+1) kv.2))

/-- `yaml.dump` model with adequate fuel. -/
def yamlDump (v : Json) : String := yamlDumpF (jsize v + 1) 0 v

/-- Local helper dump_json_with_line_head of `_construct_examples`
(lines 129-134). -/
def dump_json_with_line_head (v : Json) (line_head : String) : String :=
  String.join ((splitLinesKeep (jsonDumpsIndent v)).map (fun line => line_head ++ line))

/-- Local helper dump_yaml_with_line_head of `_construct_examples`
(lines 136-143). -/
def dump_yaml_with_line_head (v : Json) (line_head : String) : String :=
  pyRstrip (String.join ((splitLinesKeep (yamlDump v)).map (fun line => line_head ++ line)))

/-- Parser._construct_examples (lines 126-161). -/
def construct_examples (p : Parser) (objJ : Json) (indent_level : Nat) (add_header : Bool) :
    Except PyError (List String) := do
  let b ← pyContains ("examples") objJ
  if b then do
    let v ← jGetItem objJ ("examples")
    let example_indentation := indentStr (tab_size * indent_level)
    let headerPart := if add_header then ["\n" ++ example_indentation ++ "Examples:\n"] else []
    let elems ← pyIterElems v
    pure (headerPart ++ elems.map (fun ex =>
      if p.examples_as_yaml then
        example_indentation ++ "```yaml\n" ++ dump_yaml_with_line_head ex example_indentation ++
          "\n" ++ example_indentation ++ "```\n\n"
      else
        example_indentation ++ "```json\n" ++ dump_json_with_line_head ex example_indentation ++
          "\n" ++ example_indentation ++ "```\n\n"))
  else pure []

/-- Python f-string rendering of the optional `name` argument (`None` when
missing). -/
def pyStrOptName : Option String → String
  | some n => n
  | none => "None"

/-- The `TypeError` raised by `_parse_object` on a node that is neither a
dict nor a list (lines 205-208); the f-string renders `None` for a missing
name and `str()` of the value. -/
def nonObjectError (name : Option String) (obj : Json) : PyError :=
  ⟨"TypeError",
    "Non-object type found in properties list: `" ++
      pyStrOptName name ++ ": " ++ pyStr obj ++ "`."⟩

/-- The schema-composition keyword map of `_parse_object` (lines 240-244),
in dict insertion order. -/
def schema_composition_keyword_map : List (String × String) :=
  [("allOf", "All of"), ("anyOf", "Any of"), ("oneOf", "One of")]

/-- Parser._parse_object (lines 174-301), fueled.  Mutating appends to the
shared `parsed_lines` list become functional threading (the source always
reassigns `parsed_lines` to the returned list); an uncaught exception
discards all output, as in Python. -/
def parseObjectF (p : Parser) :
    Nat → Json → Option String → Bool → List String → Nat → List String → Bool →
      Except PyError (List String)
  | 0, _, _, _, _, _, _, _ => .error ⟨"RecursionError", "maximum recursion depth exceeded"⟩
  | fuel+1, obj, name, name_monospace, parsed_lines, indent_level, path, required =>
    let indentation := indentStr (tab_size * indent_level)
    let indentation_items := indentStr (tab_size * (indent_level + 1))
    match obj with
    | .arr elements =>
        -- lines 192-203: a list renders a `- **{name}**:` line, then its
        -- elements anonymously one level deeper.
        let lines1 := append_line
          (indentation ++ "- **" ++ pyStrOptName name ++ "**:\n")
          parsed_lines
        elements.foldlM
          (fun ls e => parseObjectF p fuel e none false ls (indent_level + 1) [] false) lines1
    | .obj kvs => do
        -- lines 210-237: the own line of the node.
        let description_line_base ← construct_description_line kvs false
        let description_line_list := description_line_base.map
          (fun line => strReplace line ("\n\n") ("<br>" ++ indentation_items))
        let description_line := String.intercalate (" ") description_line_list
        let optional_format :=
          match jfind kvs ("format") with
          | some f => ", format: " ++ pyStr f
          | none => ""
        let pair :=
          match name with
          | none =>
              ((match jfind kvs ("type") with
                | some t => "*" ++ pyStr t ++ optional_format ++ "*"
                | none => ""), "")
          | some n =>
              let required_str := if required then ", required" else ""
              ((match jfind kvs ("type") with
                | some t => " *(" ++ pyStr t ++ optional_format ++ required_str ++ ")*"
                | none => ""),
               if name_monospace then "**`" ++ n ++ "`**" else "**" ++ n ++ "**")
        let obj_type := pair.1
        let name_formatted := pair.2
        let anchor :=
          if path ≠ [] then "<a id=\"" ++ pyQuote (String.intercalate ("/") path) ++ "\"></a>"
          else ""
        let lines0 := append_line
          (indentation ++ "- " ++ anchor ++ name_formatted ++ obj_type ++ description_line ++ "\n")
          parsed_lines
        -- lines 239-258: schema composition keywords.
        let lines1 ← schema_composition_keyword_map.foldlM
          (fun (ls : List String) kl =>
            match jfind kvs kl.1 with
            | none => pure ls
            | some v => do
                let ls1 := append_line (indentation_items ++ "- **" ++ kl.2 ++ "**\n") ls
                let elems ← pyIterElems v
                elems.foldlM
                  (fun l e => parseObjectF p fuel e none false l (indent_level + 2) [] false)
                  ls1)
          lines0
        -- lines 260-269: items / definitions / $defs.
        let lines2 ← (["items", "definitions", "$defs"]).foldlM
          (fun (ls : List String) pname =>
            match jfind kvs pname with
            | none => pure ls
            | some v =>
                parseObjectF p fuel v (some (pyCapitalize pname)) false ls (indent_level + 1)
                  [] false)
          lines1
        -- lines 271-281: additional / unevaluated child properties
        -- (recursed only when the value is a dict).
        let lines3 ← (["additional", "unevaluated"]).foldlM
          (fun (ls : List String) extra =>
            match jfind kvs (extra ++ "Properties") with
            | some (.obj sub) =>
                parseObjectF p fuel (.obj sub) (some (pyCapitalize extra ++ " properties")) false
                  ls (indent_level + 1) [] false
            | _ => pure ls)
          lines2
        -- lines 283-293: properties / patternProperties children, each with
        -- `required = key in obj.get("required", [])`.
        let lines4 ← (["properties", "patternProperties"]).foldlM
          (fun (ls : List String) pname =>
            match jfind kvs pname with
            | none => pure ls
            | some (.obj children) =>
                children.foldlM
                  (fun l kv => do
                    let req ← pyContains kv.1 (jGetD kvs ("required") (Json.arr []))
                    parseObjectF p fuel kv.2 (some kv.1) true l (indent_level + 1) [] req)
                  ls
            | some v =>
                .error ⟨"AttributeError",
                  "\x27" ++ pyTypeName v ++ "\x27 object has no attribute \x27items\x27"⟩)
          lines3
        -- lines 295-299: examples.
        if p.show_examples = "all" ∨ p.show_examples = "properties" then do
          let ex ← construct_examples p (.obj kvs) indent_level true
          pure (lines4 ++ ex)
        else pure lines4
    | other =>
        -- lines 205-208: neither dict nor list is a hard stop.
        .error (nonObjectError name other)

/-- Parser._parse_object with the defaulted arguments of the source
(`name_monospace=True`, `parsed_lines=None`, `indent_level=0`, `path=None`,
`required=False`) and adequate fuel. -/
def parse_object (p : Parser) (obj : Json) (name : Option String) : Except PyError (List String) :=
  parseObjectF p (jsize obj + 1) obj name true [] 0 [] false

/-- gather_props (lines 306-315), fueled: collect `obj[prop]` here and in
all `allOf` branches, recursively. -/
def gather_propsF : Nat → Json → String → Except PyError (List Json)
  | 0, _, _ => .error ⟨"RecursionError", "maximum recursion depth exceeded"⟩
  | fuel+1, obj, prop => do
      let hasProp ← pyContains prop obj
      let base ←
        if hasProp then do
          let v ← jGetItem obj prop
          pure [v]
        else pure []
      let hasAll ← pyContains ("allOf") obj
      if hasAll then do
        let v ← jGetItem obj ("allOf")
        let elems ← pyIterElems v
        elems.foldlM
          (fun acc sub => do
            let r ← gather_propsF fuel sub prop
            pure (acc ++ r))
          base
      else pure base

/-- Title/description lines of `parse_schema` (lines 319-326). -/
def titleSection (master : Json) : Except PyError (List String) := do
  let b ← pyContains ("title") master
  if b then do
    let t ← jGetItem master ("title")
    pure ["# " ++ pyStr t ++ "\n\n"]
  else pure ["# JSON Schema\n\n"]

/-- Root description line of `parse_schema` (lines 325-326). -/
def descriptionSection (master : Json) : Except PyError (List String) := do
  let b ← pyContains ("description") master
  if b then do
    let d ← jGetItem master ("description")
    pure ["*" ++ pyStr d ++ "*\n\n"]
  else pure []

/-- Items section of `parse_schema` (lines 328-335): items gathered through
`allOf`; the `first` flag of the source emits the header once before the
first gathered group, i.e. nothing when the gathered list is empty and the
header followed by all renderings otherwise. -/
def itemsSection (p : Parser) (fuel : Nat) (master : Json) : Except PyError (List String) := do
  let groups ← gather_propsF fuel master ("items")
  match groups with
  | [] => pure []
  | gs => do
      let rendered ← gs.foldlM
        (fun (acc : List String) so => do
          let nl ← parseObjectF p fuel so (some ("Items")) false [] 0 [] false
          pure (acc ++ nl))
        []
      pure (["## Items\n\n"] ++ rendered)

/-- Root additional/unevaluated-properties sections of `parse_schema`
(lines 337-350), emitted only for dict-valued keywords. -/
def extraSection (p : Parser) (fuel : Nat) (master : Json) : Except PyError (List String) :=
  (["additional", "unevaluated"]).foldlM
    (fun (acc : List String) extra => do
      let pname := extra ++ "Properties"
      let title_ := pyCapitalize extra ++ " Properties"
      let b ← pyContains pname master
      if b then do
        let v ← jGetItem master pname
        match v with
        | .obj sub => do
            let nl ← parseObjectF p fuel (.obj sub) (some title_) false [] 0 [] false
            pure (acc ++ ["## " ++ title_ ++ "\n\n"] ++ nl)
        | _ => pure acc
      else pure acc)
    []

/-- Pattern-properties section of `parse_schema` (lines 352-360), gathered
through `allOf`, header emitted once before the first gathered group. -/
def patternSection (p : Parser) (fuel : Nat) (master : Json) : Except PyError (List String) := do
  let groups ← gather_propsF fuel master ("patternProperties")
  match groups with
  | [] => pure []
  | gs => do
      let rendered ← gs.foldlM
        (fun (acc : List String) so =>
          match so with
          | .obj items =>
              items.foldlM
                (fun (a : List String) kv => do
                  let nl ← parseObjectF p fuel kv.2 (some kv.1) true [] 0 [] false
                  pure (a ++ nl))
                acc
          | v =>
              .error ⟨"AttributeError",
                "\x27" ++ pyTypeName v ++ "\x27 object has no attribute \x27items\x27"⟩)
        []
      pure (["## Pattern Properties\n\n"] ++ rendered)

/-- Properties section of `parse_schema` (lines 362-371), gathered through
`allOf`, header emitted once before the first gathered group.  Note the
required lookup `schema_object.get("required", [])` is made on the gathered
properties dict itself, not on its parent schema object. -/
def propertiesSection (p : Parser) (fuel : Nat) (master : Json) : Except PyError (List String) := do
  let groups ← gather_propsF fuel master ("properties")
  match groups with
  | [] => pure []
  | gs => do
      let rendered ← gs.foldlM
        (fun (acc : List String) so =>
          match so with
          | .obj items =>
              items.foldlM
                (fun (a : List String) kv => do
                  let req ← pyContains kv.1 (jGetD items ("required") (Json.arr []))
                  let nl ← parseObjectF p fuel kv.2 (some kv.1) true [] 0 [] req
                  pure (a ++ nl))
                acc
          | v =>
              .error ⟨"AttributeError",
                "\x27" ++ pyTypeName v ++ "\x27 object has no attribute \x27items\x27"⟩)
        []
      pure (["## Properties\n\n"] ++ rendered)

/-- Definitions/$defs section of `parse_schema` (lines 373-378), rendered
with anchors. -/
def definitionsSection (p : Parser) (fuel : Nat) (master : Json) : Except PyError (List String) :=
  (["definitions", "$defs"]).foldlM
    (fun (acc : List String) dname => do
      let b ← pyContains dname master
      if b then do
        let v ← jGetItem master dname
        match v with
        | .obj items =>
            items.foldlM
              (fun (a : List String) kv => do
                let nl ← parseObjectF p fuel kv.2 (some kv.1) true [] 0 [dname, kv.1] false
                pure (a ++ nl))
              acc
        | other =>
            .error ⟨"AttributeError",
              "\x27" ++ pyTypeName other ++ "\x27 object has no attribute \x27items\x27"⟩
      else pure acc)
    []

/-- Root examples section of `parse_schema` (lines 380-389). -/
def examplesSection (p : Parser) (master : Json) : Except PyError (List String) := do
  let b ← pyContains ("examples") master
  if b ∧ (p.show_examples = "all" ∨ p.show_examples = "object") then do
    let ex ← construct_examples p master 0 false
    pure (["## Examples\n\n"] ++ ex)
  else pure []

/-- Parser.parse_schema (lines 303-391), fueled: the sections above in
source order. -/
def parse_schemaF (p : Parser) (fuel : Nat) (master : Json) : Except PyError (List String) :=
  titleSection master >>= fun titlePart =>
  descriptionSection master >>= fun descPart =>
  itemsSection p fuel master >>= fun itemsPart =>
  extraSection p fuel master >>= fun extraPart =>
  patternSection p fuel master >>= fun patPart =>
  propertiesSection p fuel master >>= fun propsPart =>
  definitionsSection p fuel master >>= fun defsPart =>
  examplesSection p master >>= fun exPart =>
  pure (titlePart ++ descPart ++ itemsPart ++ extraPart ++ patPart ++ propsPart ++
    defsPart ++ exPart)

/-- Parser.parse_schema with adequate fuel. -/
def parse_schema (p : Parser) (master : Json) : Except PyError (List String) :=
  parse_schemaF p (jsize master + 1) master

/-- Whether a JSON value is neither a dict nor a list (the values on which
`_parse_object` raises its `TypeError`). -/
def isLeaf : Json → Bool
  | .obj _ => false
  | .arr _ => false
  | _ => true

/-- Whether a key is absent or mapped to a string. -/
def strOrAbsent (kvs : List (String × Json)) (key : String) : Bool :=
  match jfind kvs key with
  | none => true
  | some (.str _) => true
  | some _ => false

/-- Whether a key is absent or mapped to an array. -/
def arrOrAbsent (kvs : List (String × Json)) (key : String) : Bool :=
  match jfind kvs key with
  | none => true
  | some (.arr _) => true
  | some _ => false

/-- Sufficient well-formedness condition on schema nodes under which the
tree walker succeeds: every recursively rendered node is a dict or a list,
`description`/`$ref` are strings when present, `required` and `examples`
are arrays when present, composition keywords hold arrays of well-formed
nodes, and `properties`/`patternProperties` hold dicts of well-formed
values.  This is a verification device (not a function of the source). -/
def renderableF : Nat → Json → Bool
  | 0, _ => false
  | fuel+1, v =>
    match v with
    | .arr xs => xs.all (fun e => renderableF fuel e)
    | .obj kvs =>
        strOrAbsent kvs ("description") &&
        strOrAbsent kvs ("$ref") &&
        arrOrAbsent kvs ("required") &&
        arrOrAbsent kvs ("examples") &&
        ((["allOf", "anyOf", "oneOf"]).all (fun k =>
          match jfind kvs k with
          | none => true
          | some (.arr cs) => cs.all (fun e => renderableF fuel e)
          | some _ => false)) &&
        ((["items", "definitions", "$defs"]).all (fun k =>
          match jfind kvs k with
          | none => true
          | some w => renderableF fuel w)) &&
        ((["additional", "unevaluated"]).all (fun extra =>
          match jfind kvs (extra ++ "Properties") with
          | some (.obj sub) => renderableF fuel (.obj sub)
          | _ => true)) &&
        ((["properties", "patternProperties"]).all (fun k =>
          match jfind kvs k with
          | none => true
          | some (.obj children) => children.all (fun kv => renderableF fuel kv.2)
          | some _ => false))
    | _ => false

/-- Whether an `Except` computation succeeded. -/
def exOk {ε α : Type} : Except ε α → Bool
  | .ok _ => true
  | .error _ => false

/-- Whether `p` is a prefix of `s` (character-wise). -/
def strStartsWith (s p : String) : Bool := s.data.take p.data.length = p.data

theorem pyLowerChar_idem (c : Char) : pyLowerChar (pyLowerChar c) = pyLowerChar c := by
  unfold pyLowerChar
  by_cases h : 65 ≤ c.toNat ∧ c.toNat ≤ 90
  · simp only [h, and_self, if_true]
    obtain ⟨h1, h2⟩ := h
    interval_cases h3 : c.toNat <;> simp_all
  · simp [h]

theorem pyLower_idem (s : String) : pyLower (pyLower s) = pyLower s := by
  unfold pyLower
  simp only [List.map_map, Function.comp_def, pyLowerChar_idem]

/-- C1, corrected: when `append_line` appends a line after a previous line,
exactly one blank line is inserted between them precisely when their
leading-indentation widths differ AND the previous line IS a bullet item
(`- `/`* ` prefix after lstripping); in every other case (equal widths, or
a non-bullet previous line) no blank line is inserted.  The Python
condition `not x not in l` parses as `x in l`, which flips the bullet test
relative to the claim. -/
theorem C1_append_line_blank_rule (line prev : String) (pre : List String) :
    append_line line (pre ++ [prev]) =
      if leadingWs prev ≠ leadingWs line ∧ isBulletItem prev then
        (pre ++ [prev]) ++ ["\n", line]
      else (pre ++ [prev]) ++ [line] := by
  unfold append_line
  rw [List.getLast?_concat]

/-- C1 counterexample: with a previous bullet line of different width the
code inserts the blank line the claim forbids, and with a previous
non-bullet line of different width it omits the blank line the claim
requires. -/
theorem C1_counterexample :
    (append_line ("  - b\n") (["- a\n"]) = ["- a\n", "\n", "  - b\n"] ∧
      append_line ("  - b\n") (["- a\n"]) ≠ ["- a\n", "  - b\n"]) ∧
    (append_line ("  bar\n") (["foo\n"]) = ["foo\n", "  bar\n"] ∧
      append_line ("  bar\n") (["foo\n"]) ≠ ["foo\n", "\n", "  bar\n"]) := by
  decide

/-- C8 counterexample: the value `ALL` is outside the valid set yet
construction succeeds, because the value is lowercased first. -/
theorem C8_counterexample :
    Parser.init false ("ALL") = .ok ⟨false, "all"⟩ ∧ ("ALL") ∉ valid_show_examples_options := by
  decide

/-- C8, corrected: construction fails with a ValueError-class error exactly
when the LOWERCASED `show_examples` value is outside
`{all, object, properties}`; the error message enumerates the valid set;
construction with a value whose lowercasing is in the set succeeds; and
the default value of `show_examples` is `all`. -/
theorem C8_show_examples_validation (b : Bool) (s : String) :
    (pyLower s ∈ valid_show_examples_options → Parser.init b s = .ok ⟨b, pyLower s⟩) ∧
    (pyLower s ∉ valid_show_examples_options →
      Parser.init b s = .error ⟨"ValueError", show_examples_error_msg (pyLower s)⟩ ∧
      ∀ opt ∈ valid_show_examples_options,
        opt.data <:+: (show_examples_error_msg (pyLower s)).data) ∧
    Parser.init b show_examples_default = .ok ⟨b, "all"⟩ := by
  refine ⟨fun h => by simp [Parser.init, h], fun h => ⟨by simp [Parser.init, h], ?_⟩, ?_⟩
  · intro opt hopt
    have hdata : (show_examples_error_msg (pyLower s)).data =
        ("`show_examples` option should be one of `[\x27all\x27, \x27object\x27, \x27properties\x27]`; `").data ++
          (pyLower s).data ++ ("` was passed.").data := by
      simp [show_examples_error_msg, String.data_append]
    rw [hdata]
    have hin : opt.data <:+:
        ("`show_examples` option should be one of `[\x27all\x27, \x27object\x27, \x27properties\x27]`; `").data := by
      fin_cases hopt <;> decide
    exact hin.trans ((List.prefix_append _ _).isInfix)
  · have h : pyLower ("all") = "all" := by decide
    simp [Parser.init, show_examples_default, h, valid_show_examples_options]

theorem C8_witness :
    Parser.init false ("bogus") = .error ⟨"ValueError", show_examples_error_msg (pyLower ("bogus"))⟩ ∧
    Parser.init false ("object") = .ok ⟨false, pyLower ("object")⟩ := by
  constructor
  · exact ((C8_show_examples_validation false ("bogus")).2.1 (by decide)).1
  · exact (C8_show_examples_validation false ("object")).1 (by decide)

/-- C10, confirmed: the `show_examples` value is lowercased before
validation, so construction behaves identically on any case variant
(e.g. `ALL`, `Object`), and the ValueError for invalid values reports the
lowercased input. -/
theorem C10_show_examples_case_insensitive (b : Bool) (s : String) :
    Parser.init b s = Parser.init b (pyLower s) ∧
    Parser.init b ("ALL") = .ok ⟨b, "all"⟩ ∧
    Parser.init b ("Object") = .ok ⟨b, "object"⟩ ∧
    (pyLower s ∉ valid_show_examples_options →
      Parser.init b s = .error ⟨"ValueError", show_examples_error_msg (pyLower s)⟩) := by
  refine ⟨?_, ?_, ?_, fun h => by simp [Parser.init, h]⟩
  · unfold Parser.init
    rw [pyLower_idem]
  · have h : pyLower ("ALL") = "all" := by decide
    simp [Parser.init, h, valid_show_examples_options]
  · have h : pyLower ("Object") = "object" := by decide
    simp [Parser.init, h, valid_show_examples_options]

theorem C10_witness :
    Parser.init true ("PropErties") = Parser.init true (pyLower ("PropErties")) ∧
    Parser.init true ("MiXeD") = .error ⟨"ValueError", show_examples_error_msg (pyLower ("MiXeD"))⟩ := by
  refine ⟨(C10_show_examples_case_insensitive true ("PropErties")).1, ?_⟩
  exact (C10_show_examples_case_insensitive true ("MiXeD")).2.2.2 (by decide)

theorem cdl_decomp (kvs : List (String × Json)) (b : Bool) (frags : List String)
    (hdesc : jfind kvs ("description") = none)
    (hok : construct_description_line kvs b = .ok frags) :
    ∃ refPart,
      frags = typeSentence kvs b ++ minimumSentence kvs ++ exclusiveMinimumSentence kvs ++
        maximumSentence kvs ++ exclusiveMaximumSentence kvs ++ lengthSentence kvs ++
        enumSentence kvs ++ constSentence kvs ++
        (extraPropsSentence kvs ("additional") ++ extraPropsSentence kvs ("unevaluated")) ++
        refPart ++ defaultSentence kvs ∧
      ((jfind kvs ("$ref") = none ∧ refPart = []) ∨
        ∃ dest, jfind kvs ("$ref") = some (Json.str dest) ∧ refPart = [refSentence dest]) := by
  unfold construct_description_line at hok
  have hdp : descriptionPart kvs = .ok [] := by
    unfold descriptionPart
    rw [hdesc]
  rw [hdp] at hok
  cases hr : jfind kvs ("$ref") with
  | none =>
      have hrp : refLinkPart kvs = .ok [] := by
        unfold refLinkPart
        rw [hr]
      rw [hrp] at hok
      refine ⟨[], ?_, Or.inl ⟨rfl, rfl⟩⟩
      simp only [Bind.bind, Except.bind, pure, Except.pure, Except.ok.injEq] at hok
      simpa using hok.symm
  | some v =>
      cases v with
      | str dest =>
          have hrp : refLinkPart kvs = .ok [refSentence dest] := by
            unfold refLinkPart
            rw [hr]
          rw [hrp] at hok
          refine ⟨[refSentence dest], ?_, Or.inr ⟨dest, rfl, rfl⟩⟩
          simp only [Bind.bind, Except.bind, pure, Except.pure, Except.ok.injEq] at hok
          simpa using hok.symm
      | null =>
          have hrp : refLinkPart kvs = .error ⟨"AttributeError",
              "\x27" ++ pyTypeName Json.null ++ "\x27 object has no attribute \x27endswith\x27"⟩ := by
            unfold refLinkPart
            rw [hr]
          rw [hrp] at hok
          exact Except.noConfusion hok
      | bool b2 =>
          have hrp : refLinkPart kvs = .error ⟨"AttributeError",
              "\x27" ++ pyTypeName (Json.bool b2) ++ "\x27 object has no attribute \x27endswith\x27"⟩ := by
            unfold refLinkPart
            rw [hr]
          rw [hrp] at hok
          exact Except.noConfusion hok
      | num n =>
          have hrp : refLinkPart kvs = .error ⟨"AttributeError",
              "\x27" ++ pyTypeName (Json.num n) ++ "\x27 object has no attribute \x27endswith\x27"⟩ := by
            unfold refLinkPart
            rw [hr]
          rw [hrp] at hok
          exact Except.noConfusion hok
      | arr xs =>
          have hrp : refLinkPart kvs = .error ⟨"AttributeError",
              "\x27" ++ pyTypeName (Json.arr xs) ++ "\x27 object has no attribute \x27endswith\x27"⟩ := by
            unfold refLinkPart
            rw [hr]
          rw [hrp] at hok
          exact Except.noConfusion hok
      | obj kvs2 =>
          have hrp : refLinkPart kvs = .error ⟨"AttributeError",
              "\x27" ++ pyTypeName (Json.obj kvs2) ++ "\x27 object has no attribute \x27endswith\x27"⟩ := by
            unfold refLinkPart
            rw [hr]
          rw [hrp] at hok
          exact Except.noConfusion hok

theorem strStartsWith_false_of_head (s pat : String)
    (hpat : pat.data ≠ []) (hne : s.data.head? ≠ pat.data.head?) :
    strStartsWith s pat = false := by
  unfold strStartsWith
  rcases hp : pat.data with _ | ⟨pc, pt⟩
  · exact absurd hp hpat
  · rcases hs : s.data with _ | ⟨sc, st⟩
    · simp
    · rw [hp, hs] at hne
      simp only [List.head?] at hne
      simp [List.take_succ_cons, List.cons.injEq]
      intro hcontra
      exact fun _ => hne (by rw [hcontra])

theorem str_ne_of_head (s t : String) (h : s.data.head? ≠ t.data.head?) : s ≠ t :=
  fun he => h (he ▸ rfl)

theorem typeSentence_filter_none (kvs : List (String × Json)) (b : Bool) (pat : String)
    (hpat : pat.data ≠ []) (h : some ('M') ≠ pat.data.head?) :
    (typeSentence kvs b).filter (fun s => strStartsWith s pat) = [] := by
  unfold typeSentence
  cases b with
  | false => rfl
  | true =>
      cases ht : jfind kvs ("type") with
      | none => rfl
      | some t =>
          have hf := strStartsWith_false_of_head ("Must be of type *" ++ pyStr t ++ "*.") pat hpat
            (by simpa [String.data_append] using h)
          simp [List.filter, hf]

theorem minimumSentence_filter_none (kvs : List (String × Json)) (pat : String)
    (hpat : pat.data ≠ []) (h : some ('M') ≠ pat.data.head?) :
    (minimumSentence kvs).filter (fun s => strStartsWith s pat) = [] := by
  unfold minimumSentence
  cases ht : jfind kvs ("minimum") with
  | none => rfl
  | some v =>
      have hf := strStartsWith_false_of_head ("Minimum: `" ++ pyStr v ++ "`.") pat hpat
        (by simpa [String.data_append] using h)
      simp [List.filter, hf]

theorem exclusiveMinimumSentence_filter_none (kvs : List (String × Json)) (pat : String)
    (hpat : pat.data ≠ []) (h : some ('E') ≠ pat.data.head?) :
    (exclusiveMinimumSentence kvs).filter (fun s => strStartsWith s pat) = [] := by
  unfold exclusiveMinimumSentence
  cases ht : jfind kvs ("exclusiveMinimum") with
  | none => rfl
  | some v =>
      have hf := strStartsWith_false_of_head ("Exclusive minimum: `" ++ pyStr v ++ "`.") pat hpat
        (by simpa [String.data_append] using h)
      simp [List.filter, hf]

theorem maximumSentence_filter_none (kvs : List (String × Json)) (pat : String)
    (hpat : pat.data ≠ []) (h : some ('M') ≠ pat.data.head?) :
    (maximumSentence kvs).filter (fun s => strStartsWith s pat) = [] := by
  unfold maximumSentence
  cases ht : jfind kvs ("maximum") with
  | none => rfl
  | some v =>
      have hf := strStartsWith_false_of_head ("Maximum: `" ++ pyStr v ++ "`.") pat hpat
        (by simpa [String.data_append] using h)
      simp [List.filter, hf]

theorem exclusiveMaximumSentence_filter_none (kvs : List (String × Json)) (pat : String)
    (hpat : pat.data ≠ []) (h : some ('E') ≠ pat.data.head?) :
    (exclusiveMaximumSentence kvs).filter (fun s => strStartsWith s pat) = [] := by
  unfold exclusiveMaximumSentence
  cases ht : jfind kvs ("exclusiveMaximum") with
  | none => rfl
  | some v =>
      have hf := strStartsWith_false_of_head ("Exclusive maximum: `" ++ pyStr v ++ "`.") pat hpat
        (by simpa [String.data_append] using h)
      simp [List.filter, hf]

theorem enumSentence_filter_none (kvs : List (String × Json)) (pat : String)
    (hpat : pat.data ≠ []) (h : some ('M') ≠ pat.data.head?) :
    (enumSentence kvs).filter (fun s => strStartsWith s pat) = [] := by
  unfold enumSentence
  cases ht : jfind kvs ("enum") with
  | none => rfl
  | some v =>
      have hf := strStartsWith_false_of_head ("Must be one of: `" ++ jsonDumps v ++ "`.") pat hpat
        (by simpa [String.data_append] using h)
      simp [List.filter, hf]

theorem constSentence_filter_none (kvs : List (String × Json)) (pat : String)
    (hpat : pat.data ≠ []) (h : some ('M') ≠ pat.data.head?) :
    (constSentence kvs).filter (fun s => strStartsWith s pat) = [] := by
  unfold constSentence
  cases ht : jfind kvs ("const") with
  | none => rfl
  | some v =>
      have hf := strStartsWith_false_of_head ("Must be: `" ++ jsonDumps v ++ "`.") pat hpat
        (by simpa [String.data_append] using h)
      simp [List.filter, hf]

theorem defaultSentence_filter_none (kvs : List (String × Json)) (pat : String)
    (hpat : pat.data ≠ []) (h : some ('D') ≠ pat.data.head?) :
    (defaultSentence kvs).filter (fun s => strStartsWith s pat) = [] := by
  unfold defaultSentence
  cases ht : jfind kvs ("default") with
  | none => rfl
  | some v =>
      have hf := strStartsWith_false_of_head ("Default: `" ++ jsonDumps v ++ "`.") pat hpat
        (by simpa [String.data_append] using h)
      simp [List.filter, hf]

theorem extraPropsSentence_filter_none (kvs : List (String × Json)) (extra pat : String)
    (hpat : pat.data ≠ []) (h : some ('C') ≠ pat.data.head?) :
    (extraPropsSentence kvs extra).filter (fun s => strStartsWith s pat) = [] := by
  unfold extraPropsSentence
  cases ht : jfind kvs (extra ++ "Properties") with
  | none => rfl
  | some v =>
      have hf1 := strStartsWith_false_of_head ("Can contain " ++ extra ++ " properties.") pat hpat
        (by simpa [String.data_append] using h)
      have hf2 := strStartsWith_false_of_head ("Cannot contain " ++ extra ++ " properties.") pat hpat
        (by simpa [String.data_append] using h)
      by_cases htr : jTruthy v <;> simp [htr, List.filter, hf1, hf2]

theorem lengthSentence_filter_none (kvs : List (String × Json)) (pat : String)
    (hpat : pat.data ≠ []) (h : some ('L') ≠ pat.data.head?) :
    (lengthSentence kvs).filter (fun s => strStartsWith s pat) = [] := by
  unfold lengthSentence
  cases h1 : jfind kvs ("minItems") with
  | none =>
      cases h2 : jfind kvs ("maxItems") with
      | none => rfl
      | some mx =>
          have hf := strStartsWith_false_of_head ("Length must be at most " ++ pyStr mx ++ ".") pat hpat
            (by simpa [String.data_append] using h)
          simp [List.filter, hf]
  | some m =>
      cases h2 : jfind kvs ("maxItems") with
      | none =>
          have hf := strStartsWith_false_of_head ("Length must be at least " ++ pyStr m ++ ".") pat hpat
            (by simpa [String.data_append] using h)
          simp [List.filter, hf]
      | some mx =>
          have hf1 := strStartsWith_false_of_head ("Length must be equal to " ++ pyStr m ++ ".") pat hpat
            (by simpa [String.data_append] using h)
          have hf2 := strStartsWith_false_of_head
            ("Length must be between " ++ pyStr m ++ " and " ++ pyStr mx ++ " (inclusive).") pat hpat
            (by simpa [String.data_append] using h)
          by_cases he : pyEq m mx <;> simp [he, List.filter, hf1, hf2]

theorem lengthSentence_filter_self (kvs : List (String × Json)) :
    (lengthSentence kvs).filter (fun s => strStartsWith s ("Length must be ")) =
      lengthSentence kvs := by
  unfold lengthSentence
  cases h1 : jfind kvs ("minItems") with
  | none =>
      cases h2 : jfind kvs ("maxItems") with
      | none => rfl
      | some mx =>
          simp [List.filter, strStartsWith, String.data_append, List.take_append_of_le_length]
  | some m =>
      cases h2 : jfind kvs ("maxItems") with
      | none =>
          simp [List.filter, strStartsWith, String.data_append, List.take_append_of_le_length]
      | some mx =>
          by_cases he : pyEq m mx <;>
            simp [he, List.filter, strStartsWith, String.data_append, List.take_append_of_le_length]

theorem refPart_filter_none_len (refPart : List String) (kvs : List (String × Json))
    (href : (jfind kvs ("$ref")) = none ∧ refPart = [] ∨
      ∃ dest, jfind kvs ("$ref") = some (Json.str dest) ∧ refPart = [refSentence dest])
    (pat : String) (hpat : pat.data ≠ []) (h : some ('I') ≠ pat.data.head?) :
    refPart.filter (fun s => strStartsWith s pat) = [] := by
  rcases href with ⟨_, rfl⟩ | ⟨dest, _, rfl⟩
  · rfl
  · have hf := strStartsWith_false_of_head (refSentence dest) pat hpat
      (by simpa [refSentence, String.data_append] using h)
    simp [List.filter, hf]

/-- C5, confirmed: for a node without a description, the description
fragments contain exactly the length sentences of `lengthSentence`: one
sentence prefixed `Length must be ` when `minItems` or `maxItems` is
present (at least N / at most N / equal to N when both are equal /
between MIN and MAX (inclusive) when both differ), and none when neither
keyword is present. -/
theorem C5_length_sentence (kvs : List (String × Json)) (b : Bool) (frags : List String)
    (hdesc : jfind kvs ("description") = none)
    (hok : construct_description_line kvs b = .ok frags) :
    frags.filter (fun s => strStartsWith s ("Length must be ")) = lengthSentence kvs := by
  obtain ⟨refPart, hfr, href⟩ := cdl_decomp kvs b frags hdesc hok
  subst hfr
  simp only [List.filter_append]
  rw [typeSentence_filter_none kvs b _ (by decide) (by decide),
    minimumSentence_filter_none kvs _ (by decide) (by decide),
    exclusiveMinimumSentence_filter_none kvs _ (by decide) (by decide),
    maximumSentence_filter_none kvs _ (by decide) (by decide),
    exclusiveMaximumSentence_filter_none kvs _ (by decide) (by decide),
    lengthSentence_filter_self kvs,
    enumSentence_filter_none kvs _ (by decide) (by decide),
    constSentence_filter_none kvs _ (by decide) (by decide),
    extraPropsSentence_filter_none kvs ("additional") _ (by decide) (by decide),
    extraPropsSentence_filter_none kvs ("unevaluated") _ (by decide) (by decide),
    refPart_filter_none_len refPart kvs href _ (by decide) (by decide),
    defaultSentence_filter_none kvs _ (by decide) (by decide)]
  simp

theorem C5_witness :
    construct_description_line ([("minItems", Json.num 2), ("maxItems", Json.num 5)]) false =
      .ok ["Length must be between 2 and 5 (inclusive)."] ∧
    (["Length must be between 2 and 5 (inclusive)."].filter
        (fun s => strStartsWith s ("Length must be "))) =
      lengthSentence ([("minItems", Json.num 2), ("maxItems", Json.num 5)]) ∧
    lengthSentence ([("minItems", Json.num 2), ("maxItems", Json.num 5)]) =
      ["Length must be between 2 and 5 (inclusive)."] := by
  refine ⟨by decide, ?_, by decide⟩
  exact C5_length_sentence ([("minItems", Json.num 2), ("maxItems", Json.num 5)]) false
    (["Length must be between 2 and 5 (inclusive)."]) rfl (by decide)

theorem typeSentence_count_zero (kvs : List (String × Json)) (b : Bool) (t : String)
    (ht : t.data.head? ≠ some ('M')) : (typeSentence kvs b).count t = 0 := by
  unfold typeSentence
  cases b with
  | false => rfl
  | true =>
      cases hx : jfind kvs ("type") with
      | none => rfl
      | some v =>
          rw [List.count_eq_zero]
          intro he
          simp at he
          exact ht (by rw [he]; simp [String.data_append])

theorem minimumSentence_count_zero (kvs : List (String × Json)) (t : String)
    (ht : t.data.head? ≠ some ('M')) : (minimumSentence kvs).count t = 0 := by
  unfold minimumSentence
  cases hx : jfind kvs ("minimum") with
  | none => rfl
  | some v =>
      rw [List.count_eq_zero]
      intro he
      simp at he
      exact ht (by rw [he]; simp [String.data_append])

theorem exclusiveMinimumSentence_count_zero (kvs : List (String × Json)) (t : String)
    (ht : t.data.head? ≠ some ('E')) : (exclusiveMinimumSentence kvs).count t = 0 := by
  unfold exclusiveMinimumSentence
  cases hx : jfind kvs ("exclusiveMinimum") with
  | none => rfl
  | some v =>
      rw [List.count_eq_zero]
      intro he
      simp at he
      exact ht (by rw [he]; simp [String.data_append])

theorem maximumSentence_count_zero (kvs : List (String × Json)) (t : String)
    (ht : t.data.head? ≠ some ('M')) : (maximumSentence kvs).count t = 0 := by
  unfold maximumSentence
  cases hx : jfind kvs ("maximum") with
  | none => rfl
  | some v =>
      rw [List.count_eq_zero]
      intro he
      simp at he
      exact ht (by rw [he]; simp [String.data_append])

theorem exclusiveMaximumSentence_count_zero (kvs : List (String × Json)) (t : String)
    (ht : t.data.head? ≠ some ('E')) : (exclusiveMaximumSentence kvs).count t = 0 := by
  unfold exclusiveMaximumSentence
  cases hx : jfind kvs ("exclusiveMaximum") with
  | none => rfl
  | some v =>
      rw [List.count_eq_zero]
      intro he
      simp at he
      exact ht (by rw [he]; simp [String.data_append])

theorem enumSentence_count_zero (kvs : List (String × Json)) (t : String)
    (ht : t.data.head? ≠ some ('M')) : (enumSentence kvs).count t = 0 := by
  unfold enumSentence
  cases hx : jfind kvs ("enum") with
  | none => rfl
  | some v =>
      rw [List.count_eq_zero]
      intro he
      simp at he
      exact ht (by rw [he]; simp [String.data_append])

theorem constSentence_count_zero (kvs : List (String × Json)) (t : String)
    (ht : t.data.head? ≠ some ('M')) : (constSentence kvs).count t = 0 := by
  unfold constSentence
  cases hx : jfind kvs ("const") with
  | none => rfl
  | some v =>
      rw [List.count_eq_zero]
      intro he
      simp at he
      exact ht (by rw [he]; simp [String.data_append])

theorem defaultSentence_count_zero (kvs : List (String × Json)) (t : String)
    (ht : t.data.head? ≠ some ('D')) : (defaultSentence kvs).count t = 0 := by
  unfold defaultSentence
  cases hx : jfind kvs ("default") with
  | none => rfl
  | some v =>
      rw [List.count_eq_zero]
      intro he
      simp at he
      exact ht (by rw [he]; simp [String.data_append])

theorem lengthSentence_count_zero (kvs : List (String × Json)) (t : String)
    (ht : t.data.head? ≠ some ('L')) : (lengthSentence kvs).count t = 0 := by
  unfold lengthSentence
  cases h1 : jfind kvs ("minItems") with
  | none =>
      cases h2 : jfind kvs ("maxItems") with
      | none => rfl
      | some mx =>
          rw [List.count_eq_zero]
          intro he
          simp at he
          exact ht (by rw [he]; simp [String.data_append])
  | some m =>
      cases h2 : jfind kvs ("maxItems") with
      | none =>
          rw [List.count_eq_zero]
          intro he
          simp at he
          exact ht (by rw [he]; simp [String.data_append])
      | some mx =>
          by_cases hpe : pyEq m mx <;>
            (simp only [hpe, if_true, if_false, Bool.false_eq_true]
             rw [List.count_eq_zero]
             intro he
             simp at he
             exact ht (by rw [he]; simp [String.data_append]))

theorem refPart_count_zero (refPart : List String) (kvs : List (String × Json))
    (href : (jfind kvs ("$ref")) = none ∧ refPart = [] ∨
      ∃ dest, jfind kvs ("$ref") = some (Json.str dest) ∧ refPart = [refSentence dest])
    (t : String) (ht : t.data.head? ≠ some ('I')) : refPart.count t = 0 := by
  rcases href with ⟨_, rfl⟩ | ⟨dest, _, rfl⟩
  · rfl
  · rw [List.count_eq_zero]
    intro he
    simp at he
    exact ht (by rw [he]; simp [refSentence, String.data_append])

theorem extraPropsSentence_count_elsewhere (kvs : List (String × Json)) (extra t : String)
    (h1 : t ≠ "Can contain " ++ extra ++ " properties.")
    (h2 : t ≠ "Cannot contain " ++ extra ++ " properties.") :
    (extraPropsSentence kvs extra).count t = 0 := by
  unfold extraPropsSentence
  cases hx : jfind kvs (extra ++ "Properties") with
  | none => rfl
  | some v =>
      by_cases htr : jTruthy v <;>
        simp [htr, List.count_eq_zero, h1, h2]

theorem extraPropsSentence_counts_additional (kvs : List (String × Json)) (v : Json)
    (hv : jfind kvs ("additionalProperties") = some v) :
    (extraPropsSentence kvs ("additional")).count ("Can contain additional properties.") =
        (if jTruthy v then 1 else 0) ∧
      (extraPropsSentence kvs ("additional")).count ("Cannot contain additional properties.") =
        (if jTruthy v then 0 else 1) := by
  unfold extraPropsSentence
  rw [show ("additional" ++ "Properties" : String) = "additionalProperties" from rfl, hv]
  by_cases htr : jTruthy v <;> simp [htr, List.count_cons]

theorem extraPropsSentence_counts_unevaluated (kvs : List (String × Json)) (v : Json)
    (hv : jfind kvs ("unevaluatedProperties") = some v) :
    (extraPropsSentence kvs ("unevaluated")).count ("Can contain unevaluated properties.") =
        (if jTruthy v then 1 else 0) ∧
      (extraPropsSentence kvs ("unevaluated")).count ("Cannot contain unevaluated properties.") =
        (if jTruthy v then 0 else 1) := by
  unfold extraPropsSentence
  rw [show ("unevaluated" ++ "Properties" : String) = "unevaluatedProperties" from rfl, hv]
  by_cases htr : jTruthy v <;> simp [htr, List.count_cons]

/-- C3, corrected: for `additionalProperties`/`unevaluatedProperties`
present on a node without a description, the description fragments contain
exactly one `Can contain ... properties.` sentence when the value is
TRUTHY (true, a non-empty object, ...) and exactly one
`Cannot contain ... properties.` sentence when the value is falsy (false
or an empty object); the keyword being an object does NOT suppress the
sentence, contrary to the claim. -/
theorem C3_extra_props_sentences (kvs : List (String × Json)) (b : Bool) (extra : String)
    (v : Json) (frags : List String)
    (hextra : extra = "additional" ∨ extra = "unevaluated")
    (hdesc : jfind kvs ("description") = none)
    (hv : jfind kvs (extra ++ "Properties") = some v)
    (hok : construct_description_line kvs b = .ok frags) :
    frags.count ("Can contain " ++ extra ++ " properties.") = (if jTruthy v then 1 else 0) ∧
    frags.count ("Cannot contain " ++ extra ++ " properties.") = (if jTruthy v then 0 else 1) := by
  obtain ⟨refPart, hfr, href⟩ := cdl_decomp kvs b frags hdesc hok
  subst hfr
  simp only [List.count_append]
  rcases hextra with rfl | rfl
  · rw [show ("additional" ++ "Properties" : String) = "additionalProperties" from rfl] at hv
    obtain ⟨hcan, hcannot⟩ := extraPropsSentence_counts_additional kvs v hv
    constructor
    · rw [show ("Can contain " ++ "additional" ++ " properties." : String) = "Can contain additional properties." from rfl]
      rw [typeSentence_count_zero kvs b _ (by decide),
        minimumSentence_count_zero kvs _ (by decide),
        exclusiveMinimumSentence_count_zero kvs _ (by decide),
        maximumSentence_count_zero kvs _ (by decide),
        exclusiveMaximumSentence_count_zero kvs _ (by decide),
        lengthSentence_count_zero kvs _ (by decide),
        enumSentence_count_zero kvs _ (by decide),
        constSentence_count_zero kvs _ (by decide),
        refPart_count_zero refPart kvs href _ (by decide),
        defaultSentence_count_zero kvs _ (by decide),
        hcan,
        extraPropsSentence_count_elsewhere kvs ("unevaluated") _ (by decide) (by decide)]
      omega
    · rw [show ("Cannot contain " ++ "additional" ++ " properties." : String) = "Cannot contain additional properties." from rfl]
      rw [typeSentence_count_zero kvs b _ (by decide),
        minimumSentence_count_zero kvs _ (by decide),
        exclusiveMinimumSentence_count_zero kvs _ (by decide),
        maximumSentence_count_zero kvs _ (by decide),
        exclusiveMaximumSentence_count_zero kvs _ (by decide),
        lengthSentence_count_zero kvs _ (by decide),
        enumSentence_count_zero kvs _ (by decide),
        constSentence_count_zero kvs _ (by decide),
        refPart_count_zero refPart kvs href _ (by decide),
        defaultSentence_count_zero kvs _ (by decide),
        hcannot,
        extraPropsSentence_count_elsewhere kvs ("unevaluated") _ (by decide) (by decide)]
      omega
  · rw [show ("unevaluated" ++ "Properties" : String) = "unevaluatedProperties" from rfl] at hv
    obtain ⟨hcan, hcannot⟩ := extraPropsSentence_counts_unevaluated kvs v hv
    constructor
    · rw [show ("Can contain " ++ "unevaluated" ++ " properties." : String) = "Can contain unevaluated properties." from rfl]
      rw [typeSentence_count_zero kvs b _ (by decide),
        minimumSentence_count_zero kvs _ (by decide),
        exclusiveMinimumSentence_count_zero kvs _ (by decide),
        maximumSentence_count_zero kvs _ (by decide),
        exclusiveMaximumSentence_count_zero kvs _ (by decide),
        lengthSentence_count_zero kvs _ (by decide),
        enumSentence_count_zero kvs _ (by decide),
        constSentence_count_zero kvs _ (by decide),
        refPart_count_zero refPart kvs href _ (by decide),
        defaultSentence_count_zero kvs _ (by decide),
        hcan,
        extraPropsSentence_count_elsewhere kvs ("additional") _ (by decide) (by decide)]
      omega
    · rw [show ("Cannot contain " ++ "unevaluated" ++ " properties." : String) = "Cannot contain unevaluated properties." from rfl]
      rw [typeSentence_count_zero kvs b _ (by decide),
        minimumSentence_count_zero kvs _ (by decide),
        exclusiveMinimumSentence_count_zero kvs _ (by decide),
        maximumSentence_count_zero kvs _ (by decide),
        exclusiveMaximumSentence_count_zero kvs _ (by decide),
        lengthSentence_count_zero kvs _ (by decide),
        enumSentence_count_zero kvs _ (by decide),
        constSentence_count_zero kvs _ (by decide),
        refPart_count_zero refPart kvs href _ (by decide),
        defaultSentence_count_zero kvs _ (by decide),
        hcannot,
        extraPropsSentence_count_elsewhere kvs ("additional") _ (by decide) (by decide)]
      omega

/-- C3 counterexample: a non-boolean, object-valued `additionalProperties`
still produces a sentence - `Can contain additional properties.` for a
non-empty object and `Cannot contain additional properties.` for an empty
one - contradicting the claim that no such sentence appears for objects. -/
theorem C3_counterexample :
    construct_description_line ([("additionalProperties", Json.obj [("type", Json.str "string")])])
        false =
      .ok ["Can contain additional properties."] ∧
    construct_description_line ([("additionalProperties", Json.obj [])]) false =
      .ok ["Cannot contain additional properties."] := by
  decide

theorem C3_witness :
    (["Can contain additional properties."].count ("Can contain additional properties.") =
      if jTruthy (Json.bool true) then 1 else 0) ∧
    (["Can contain additional properties."].count ("Cannot contain additional properties.") =
      if jTruthy (Json.bool true) then 0 else 1) :=
  C3_extra_props_sentences ([("additionalProperties", Json.bool true)]) false ("additional")
    (Json.bool true) (["Can contain additional properties."]) (Or.inl rfl) rfl rfl (by decide)

/-- C6, confirmed: for a node with a string `$ref` (and no description),
the description fragments contain exactly one fragment starting with
`Includes all of `, namely `refSentence dest`: the trailing `.json` is
stripped, the basename of the stripped path becomes the link title, and
the percent-encoded stripped path with `.md` appended becomes the link
target. -/
theorem C6_ref_link (kvs : List (String × Json)) (b : Bool) (frags : List String) (dest : String)
    (hdesc : jfind kvs ("description") = none)
    (href : jfind kvs ("$ref") = some (Json.str dest))
    (hok : construct_description_line kvs b = .ok frags) :
    frags.filter (fun s => strStartsWith s ("Includes all of ")) = [refSentence dest] := by
  obtain ⟨refPart, hfr, hrefp⟩ := cdl_decomp kvs b frags hdesc hok
  subst hfr
  have hrp : refPart = [refSentence dest] := by
    rcases hrefp with ⟨hnone, _⟩ | ⟨dest2, hsome, hval⟩
    · rw [href] at hnone; exact Option.noConfusion hnone
    · rw [href] at hsome
      obtain rfl : dest2 = dest := by
        injection hsome with h1
        injection h1 with h2
        exact h2.symm
      exact hval
  subst hrp
  simp only [List.filter_append]
  rw [typeSentence_filter_none kvs b _ (by decide) (by decide),
    minimumSentence_filter_none kvs _ (by decide) (by decide),
    exclusiveMinimumSentence_filter_none kvs _ (by decide) (by decide),
    maximumSentence_filter_none kvs _ (by decide) (by decide),
    exclusiveMaximumSentence_filter_none kvs _ (by decide) (by decide),
    lengthSentence_filter_none kvs _ (by decide) (by decide),
    enumSentence_filter_none kvs _ (by decide) (by decide),
    constSentence_filter_none kvs _ (by decide) (by decide),
    extraPropsSentence_filter_none kvs ("additional") _ (by decide) (by decide),
    extraPropsSentence_filter_none kvs ("unevaluated") _ (by decide) (by decide),
    defaultSentence_filter_none kvs _ (by decide) (by decide)]
  have hpos : strStartsWith (refSentence dest) ("Includes all of ") = true := by
    simp [refSentence, strStartsWith, String.data_append, List.take_append_of_le_length]
  simp [List.filter, hpos]

theorem C6_witness :
    construct_description_line ([("$ref", Json.str ("./common/address.json"))]) false =
      .ok ["Includes all of *[address](./common/address.md)*."] ∧
    (["Includes all of *[address](./common/address.md)*."].filter
        (fun s => strStartsWith s ("Includes all of "))) =
      [refSentence ("./common/address.json")] ∧
    refSentence ("./common/address.json") = "Includes all of *[address](./common/address.md)*." := by
  refine ⟨by decide, ?_, by decide⟩
  exact C6_ref_link ([("$ref", Json.str ("./common/address.json"))]) false
    (["Includes all of *[address](./common/address.md)*."]) ("./common/address.json")
    rfl rfl (by decide)

/-- C9, corrected: nodes rendered anonymously (composition-branch children
and array items are always recursed with `name=None`) produce output that
is entirely independent of the `required` flag, so they can never carry a
required marker.  (The claim itself is false because `patternProperties`
keys are also tested against the required array, see the
counterexample.) -/
theorem C9_anonymous_required_flag_irrelevant (p : Parser) (fuel : Nat) (obj : Json)
    (mono : Bool) (lines : List String) (ind : Nat) (path : List String) (r r2 : Bool) :
    parseObjectF p fuel obj none mono lines ind path r =
      parseObjectF p fuel obj none mono lines ind path r2 := by
  cases fuel with
  | zero => rfl
  | succ n => cases obj <;> rfl

/-- C9 counterexample: a schema with no `properties` mapping at all, whose
`patternProperties` key `x` is listed in `required`, renders the `x` line
with the `, required` marker - so properties keys are not the only source
of the marker. -/
theorem C9_counterexample :
    parse_object ⟨false, "all"⟩
        (Json.obj [("patternProperties", Json.obj [("x", Json.obj [("type", Json.str "string")])]),
          ("required", Json.arr [Json.str "x"])]) none =
      .ok ["- \n", "\n", "  - **`x`** *(string, required)*\n"] ∧
    jfind ([("patternProperties", Json.obj [("x", Json.obj [("type", Json.str "string")])]),
      ("required", Json.arr [Json.str "x"])]) ("properties") = none ∧
    strContains ("  - **`x`** *(string, required)*\n") (", required") = true := by
  refine ⟨by decide, rfl, by decide⟩

/-- C2, code bug: at the schema root, `parse_schema` looks `required` up
inside the gathered properties dict instead of the parent schema object,
so a root property listed in the root required array is rendered WITHOUT
the `, required` marker; the nested tree walker (second conjunct) renders
the very same schema with the marker, as the claim demands. -/
theorem C2_root_required_lookup_bug :
    parse_schema ⟨false, "all"⟩
        (Json.obj [("properties", Json.obj [("a", Json.obj [("type", Json.str "string")])]),
          ("required", Json.arr [Json.str "a"])]) =
      .ok ["# JSON Schema\n\n", "## Properties\n\n", "- **`a`** *(string)*\n"] ∧
    (∀ line ∈ ["# JSON Schema\n\n", "## Properties\n\n", "- **`a`** *(string)*\n"],
      strContains line (", required") = false) ∧
    parse_object ⟨false, "all"⟩
        (Json.obj [("type", Json.str "object"),
          ("properties", Json.obj [("a", Json.obj [("type", Json.str "string")])]),
          ("required", Json.arr [Json.str "a"])]) none =
      .ok ["- *object*\n", "\n", "  - **`a`** *(string, required)*\n"] := by
  refine ⟨by decide, by decide, by decide⟩

theorem exOk_bind {α β : Type} (e : Except PyError α) (g : α → Except PyError β)
    (he : exOk e = true) (hg : ∀ a, exOk (g a) = true) :
    exOk (e >>= g) = true := by
  cases e with
  | ok a => simpa [Bind.bind, Except.bind] using hg a
  | error err => simp [exOk] at he

theorem exOk_pure {α : Type} (a : α) : exOk (pure a : Except PyError α) = true := rfl

theorem foldlM_exOk {α : Type} (f : List String → α → Except PyError (List String)) (xs : List α)
    (h : ∀ a ∈ xs, ∀ b, exOk (f b a) = true) :
    ∀ b, exOk (xs.foldlM f b) = true := by
  induction xs with
  | nil => intro b; simp [List.foldlM, exOk, pure, Except.pure]
  | cons a rest ih =>
      intro b
      have ha := h a (by simp)
      simp only [List.foldlM]
      cases hfa : f b a with
      | error e => exact absurd (hfa ▸ ha b) (by simp [exOk])
      | ok b2 =>
          have := ih (fun x hx b3 => h x (by simp [hx]) b3) b2
          simpa [Bind.bind, Except.bind, hfa] using this

theorem jfind_jsize {kvs : List (String × Json)} {key : String} {v : Json}
    (h : jfind kvs key = some v) : jsize v < jsizeObj kvs := by
  induction kvs with
  | nil => exact Option.noConfusion h
  | cons kv rest ih =>
      obtain ⟨k, w⟩ := kv
      unfold jfind at h
      by_cases hk : k = key
      · rw [if_pos hk] at h
        obtain rfl : w = v := by injection h
        simp [jsizeObj]
        omega
      · rw [if_neg hk] at h
        have := ih h
        simp [jsizeObj]
        omega

theorem mem_jsizeList {xs : List Json} {e : Json} (h : e ∈ xs) : jsize e < jsizeList xs := by
  induction xs with
  | nil => exact absurd h (List.not_mem_nil e)
  | cons x rest ih =>
      rcases List.mem_cons.mp h with rfl | hmem
      · simp [jsizeList]; omega
      · have := ih hmem
        simp [jsizeList]
        omega

theorem mem_jsizeObj {kvs : List (String × Json)} {k : String} {v : Json}
    (h : (k, v) ∈ kvs) : jsize v < jsizeObj kvs := by
  induction kvs with
  | nil => exact absurd h (List.not_mem_nil (k, v))
  | cons kv rest ih =>
      obtain ⟨k2, v2⟩ := kv
      rcases List.mem_cons.mp h with heq | hmem
      · injection heq with h1 h2
        subst h2
        simp [jsizeObj]
        omega
      · have := ih hmem
        simp [jsizeObj]
        omega

theorem jsize_pos (v : Json) : 1 ≤ jsize v := by
  cases v <;> simp [jsize]

theorem jfind_of_any {kvs : List (String × Json)} {key : String}
    (h : kvs.any (fun kv => kv.1 == key) = true) : ∃ v, jfind kvs key = some v := by
  induction kvs with
  | nil => simp at h
  | cons kv rest ih =>
      obtain ⟨k, w⟩ := kv
      simp only [List.any_cons, Bool.or_eq_true, beq_iff_eq] at h
      by_cases hk : k = key
      · exact ⟨w, by simp [jfind, hk]⟩
      · have h2 : rest.any (fun kv => kv.1 == key) = true := by
          rcases h with h | h
          · exact absurd h hk
          · exact h
        obtain ⟨v, hv⟩ := ih h2
        exact ⟨v, by simp [jfind, hk, hv]⟩

theorem exOk_bind_strong {α β : Type} (e : Except PyError α) (g : α → Except PyError β)
    (he : exOk e = true) (hg : ∀ a, e = .ok a → exOk (g a) = true) :
    exOk (e >>= g) = true := by
  cases e with
  | ok a => simpa [Bind.bind, Except.bind] using hg a rfl
  | error err => simp [exOk] at he

theorem descriptionPart_ok (kvs : List (String × Json))
    (hdesc : strOrAbsent kvs ("description") = true) :
    exOk (descriptionPart kvs) = true := by
  unfold strOrAbsent at hdesc
  unfold descriptionPart
  cases hd : jfind kvs ("description") with
  | none => rfl
  | some v =>
      rw [hd] at hdesc
      cases v with
      | str d => rfl
      | null => simp at hdesc
      | bool x => simp at hdesc
      | num x => simp at hdesc
      | arr x => simp at hdesc
      | obj x => simp at hdesc

theorem refLinkPart_ok (kvs : List (String × Json))
    (href : strOrAbsent kvs ("$ref") = true) :
    exOk (refLinkPart kvs) = true := by
  unfold strOrAbsent at href
  unfold refLinkPart
  cases hd : jfind kvs ("$ref") with
  | none => rfl
  | some v =>
      rw [hd] at href
      cases v with
      | str d => rfl
      | null => simp at href
      | bool x => simp at href
      | num x => simp at href
      | arr x => simp at href
      | obj x => simp at href

theorem construct_description_line_ok (kvs : List (String × Json)) (b : Bool)
    (hdesc : strOrAbsent kvs ("description") = true)
    (href : strOrAbsent kvs ("$ref") = true) :
    exOk (construct_description_line kvs b) = true := by
  unfold construct_description_line
  apply exOk_bind_strong
  · exact descriptionPart_ok kvs hdesc
  · intro descPart _
    apply exOk_bind_strong
    · exact refLinkPart_ok kvs href
    · intro refPart _
      rfl

theorem construct_examples_ok (p : Parser) (kvs : List (String × Json)) (ind : Nat) (ah : Bool)
    (hex : arrOrAbsent kvs ("examples") = true) :
    exOk (construct_examples p (.obj kvs) ind ah) = true := by
  unfold construct_examples
  apply exOk_bind_strong
  · rfl
  · intro found hfound
    have hfound2 : found = kvs.any (fun kv => kv.1 == "examples") := by
      simpa [pyContains] using hfound.symm
    by_cases hb : found = true
    · rw [if_pos hb]
      rw [hfound2] at hb
      obtain ⟨v, hv⟩ := jfind_of_any hb
      apply exOk_bind_strong
      · simp [jGetItem, hv, exOk]
      · intro w hw
        have hw2 : w = v := by
          simp [jGetItem, hv] at hw
          exact hw.symm
        apply exOk_bind_strong
        · rw [hw2]
          unfold arrOrAbsent at hex
          rw [hv] at hex
          cases v with
          | arr xs => rfl
          | null => simp at hex
          | bool x => simp at hex
          | num x => simp at hex
          | str x => simp at hex
          | obj x => simp at hex
        · intro elems _
          rfl
    · rw [if_neg hb]
      rfl

theorem pyContains_required_ok (kvs : List (String × Json)) (k : String)
    (hreq : arrOrAbsent kvs ("required") = true) :
    exOk (pyContains k (jGetD kvs ("required") (Json.arr []))) = true := by
  unfold arrOrAbsent at hreq
  unfold jGetD
  cases hj : jfind kvs ("required") with
  | none => rfl
  | some v =>
      rw [hj] at hreq
      cases v with
      | arr xs => rfl
      | null => simp at hreq
      | bool x => simp at hreq
      | num x => simp at hreq
      | str x => simp at hreq
      | obj x => simp at hreq

theorem parseObjectF_renderable_ok (p : Parser) :
    ∀ fuel obj, jsize obj < fuel → renderableF fuel obj = true →
      ∀ name mono lines ind path req,
        exOk (parseObjectF p fuel obj name mono lines ind path req) = true := by
  intro fuel
  induction fuel with
  | zero => intro obj h; omega
  | succ n ih =>
      intro obj hsz hr name mono lines ind path req
      cases obj with
      | null => simp [renderableF] at hr
      | bool x => simp [renderableF] at hr
      | num x => simp [renderableF] at hr
      | str x => simp [renderableF] at hr
      | arr xs =>
          simp only [renderableF, List.all_eq_true] at hr
          simp only [parseObjectF]
          apply foldlM_exOk
          intro e he b
          have h1 := mem_jsizeList he
          have e1 : jsize (Json.arr xs) = 1 + jsizeList xs := by simp [jsize]
          exact ih e (by omega) (hr e he) none false b (ind + 1) [] false
      | obj kvs =>
          simp only [renderableF, Bool.and_eq_true] at hr
          obtain ⟨⟨⟨⟨⟨⟨⟨hdesc, href⟩, hreq⟩, hex⟩, hcomp⟩, hitems⟩, haddu⟩, hprops⟩ := hr
          simp only [List.all_eq_true] at hcomp hitems haddu hprops
          have hsz2 : jsizeObj kvs < n := by
            have e1 : jsize (Json.obj kvs) = 1 + jsizeObj kvs := by simp [jsize]
            omega
          simp only [parseObjectF]
          apply exOk_bind_strong
          · exact construct_description_line_ok kvs false hdesc href
          · intro dlb _
            dsimp only
            apply exOk_bind_strong
            · -- composition keywords fold
              apply foldlM_exOk
              intro kl hkl b
              fin_cases hkl <;> try dsimp only
              · cases hj : jfind kvs ("allOf") with
                | none => rfl
                | some v =>
                    have hc := hcomp ("allOf") (by simp)
                    rw [hj] at hc
                    cases v with
                    | arr cs =>
                        simp only [List.all_eq_true] at hc
                        apply exOk_bind_strong
                        · rfl
                        · intro elems helems
                          have helems2 : elems = cs := by
                            simpa [pyIterElems] using helems.symm
                          subst helems2
                          apply foldlM_exOk
                          intro e he b2
                          have h1 := mem_jsizeList he
                          have h2 := jfind_jsize hj
                          have e2 : jsize (Json.arr elems) = 1 + jsizeList elems := by simp [jsize]
                          exact ih e (by omega) (hc e he) none false b2 (ind + 2) [] false
                    | null => simp at hc
                    | bool x => simp at hc
                    | num x => simp at hc
                    | str x => simp at hc
                    | obj x => simp at hc
              · cases hj : jfind kvs ("anyOf") with
                | none => rfl
                | some v =>
                    have hc := hcomp ("anyOf") (by simp)
                    rw [hj] at hc
                    cases v with
                    | arr cs =>
                        simp only [List.all_eq_true] at hc
                        apply exOk_bind_strong
                        · rfl
                        · intro elems helems
                          have helems2 : elems = cs := by
                            simpa [pyIterElems] using helems.symm
                          subst helems2
                          apply foldlM_exOk
                          intro e he b2
                          have h1 := mem_jsizeList he
                          have h2 := jfind_jsize hj
                          have e2 : jsize (Json.arr elems) = 1 + jsizeList elems := by simp [jsize]
                          exact ih e (by omega) (hc e he) none false b2 (ind + 2) [] false
                    | null => simp at hc
                    | bool x => simp at hc
                    | num x => simp at hc
                    | str x => simp at hc
                    | obj x => simp at hc
              · cases hj : jfind kvs ("oneOf") with
                | none => rfl
                | some v =>
                    have hc := hcomp ("oneOf") (by simp)
                    rw [hj] at hc
                    cases v with
                    | arr cs =>
                        simp only [List.all_eq_true] at hc
                        apply exOk_bind_strong
                        · rfl
                        · intro elems helems
                          have helems2 : elems = cs := by
                            simpa [pyIterElems] using helems.symm
                          subst helems2
                          apply foldlM_exOk
                          intro e he b2
                          have h1 := mem_jsizeList he
                          have h2 := jfind_jsize hj
                          have e2 : jsize (Json.arr elems) = 1 + jsizeList elems := by simp [jsize]
                          exact ih e (by omega) (hc e he) none false b2 (ind + 2) [] false
                    | null => simp at hc
                    | bool x => simp at hc
                    | num x => simp at hc
                    | str x => simp at hc
                    | obj x => simp at hc
            · intro lines1 _
              apply exOk_bind_strong
              · -- items / definitions / $defs fold
                apply foldlM_exOk
                intro k hk b
                fin_cases hk <;> try dsimp only
                · cases hj : jfind kvs ("items") with
                  | none => rfl
                  | some v =>
                      have hc := hitems ("items") (by simp)
                      rw [hj] at hc
                      simp only [] at hc
                      have h2 := jfind_jsize hj
                      exact ih v (by omega) hc _ false b (ind + 1) [] false
                · cases hj : jfind kvs ("definitions") with
                  | none => rfl
                  | some v =>
                      have hc := hitems ("definitions") (by simp)
                      rw [hj] at hc
                      simp only [] at hc
                      have h2 := jfind_jsize hj
                      exact ih v (by omega) hc _ false b (ind + 1) [] false
                · cases hj : jfind kvs ("$defs") with
                  | none => rfl
                  | some v =>
                      have hc := hitems ("$defs") (by simp)
                      rw [hj] at hc
                      simp only [] at hc
                      have h2 := jfind_jsize hj
                      exact ih v (by omega) hc _ false b (ind + 1) [] false
              · intro lines2 _
                apply exOk_bind_strong
                · -- additional / unevaluated properties fold
                  apply foldlM_exOk
                  intro extra hextra b
                  fin_cases hextra <;> try dsimp only
                  · cases hj : jfind kvs ("additional" ++ "Properties") with
                    | none => rfl
                    | some v =>
                        cases v with
                        | obj sub =>
                            have hc := haddu ("additional") (by simp)
                            rw [hj] at hc
                            have h2 := jfind_jsize hj
                            exact ih (.obj sub) (by omega) hc _ false b (ind + 1) [] false
                        | null => rfl
                        | bool x => rfl
                        | num x => rfl
                        | str x => rfl
                        | arr x => rfl
                  · cases hj : jfind kvs ("unevaluated" ++ "Properties") with
                    | none => rfl
                    | some v =>
                        cases v with
                        | obj sub =>
                            have hc := haddu ("unevaluated") (by simp)
                            rw [hj] at hc
                            have h2 := jfind_jsize hj
                            exact ih (.obj sub) (by omega) hc _ false b (ind + 1) [] false
                        | null => rfl
                        | bool x => rfl
                        | num x => rfl
                        | str x => rfl
                        | arr x => rfl
                · intro lines3 _
                  apply exOk_bind_strong
                  · -- properties / patternProperties fold
                    apply foldlM_exOk
                    intro pname hpname b
                    fin_cases hpname <;> try dsimp only
                    · cases hj : jfind kvs ("properties") with
                      | none => rfl
                      | some v =>
                          have hc := hprops ("properties") (by simp)
                          rw [hj] at hc
                          cases v with
                          | obj children =>
                              simp only [List.all_eq_true] at hc
                              apply foldlM_exOk
                              intro kv hkv b2
                              obtain ⟨kk, vv⟩ := kv
                              apply exOk_bind_strong
                              · exact pyContains_required_ok kvs kk hreq
                              · intro rq _
                                have h1 := mem_jsizeObj hkv
                                have h2 := jfind_jsize hj
                                have e2 : jsize (Json.obj children) = 1 + jsizeObj children := by
                                  simp [jsize]
                                exact ih vv (by omega) (hc (kk, vv) hkv) _ true b2 (ind + 1) [] rq
                          | null => simp at hc
                          | bool x => simp at hc
                          | num x => simp at hc
                          | str x => simp at hc
                          | arr x => simp at hc
                    · cases hj : jfind kvs ("patternProperties") with
                      | none => rfl
                      | some v =>
                          have hc := hprops ("patternProperties") (by simp)
                          rw [hj] at hc
                          cases v with
                          | obj children =>
                              simp only [List.all_eq_true] at hc
                              apply foldlM_exOk
                              intro kv hkv b2
                              obtain ⟨kk, vv⟩ := kv
                              apply exOk_bind_strong
                              · exact pyContains_required_ok kvs kk hreq
                              · intro rq _
                                have h1 := mem_jsizeObj hkv
                                have h2 := jfind_jsize hj
                                have e2 : jsize (Json.obj children) = 1 + jsizeObj children := by
                                  simp [jsize]
                                exact ih vv (by omega) (hc (kk, vv) hkv) _ true b2 (ind + 1) [] rq
                          | null => simp at hc
                          | bool x => simp at hc
                          | num x => simp at hc
                          | str x => simp at hc
                          | arr x => simp at hc
                  · intro lines4 _
                    by_cases hcond : (p.show_examples = "all" ∨ p.show_examples = "properties")
                    · rw [if_pos hcond]
                      apply exOk_bind_strong
                      · exact construct_examples_ok p kvs ind true hex
                      · intro ex _
                        rfl
                    · rw [if_neg hcond]
                      rfl

/-- C7, confirmed: (1) on a node that is neither a dict nor a list, the
tree walker fails immediately with the TypeError-class error whose message
contains the offending name and value (the Except embedding makes the
failure abort the whole traversal, producing no lines); (2) on well-formed
dict/list nodes (`renderableF`) no error is raised at all. -/
theorem C7_non_object_type_error :
    (∀ (p : Parser) (fuel : Nat) (obj : Json) (name : Option String) (mono : Bool)
        (lines : List String) (ind : Nat) (path : List String) (req : Bool),
      isLeaf obj = true →
      parseObjectF p (fuel + 1) obj name mono lines ind path req =
          .error (nonObjectError name obj) ∧
        (nonObjectError name obj).cls = "TypeError" ∧
        (pyStr obj).data <:+: (nonObjectError name obj).msg.data ∧
        (pyStrOptName name).data <:+: (nonObjectError name obj).msg.data) ∧
    (∀ (p : Parser) (fuel : Nat) (obj : Json), jsize obj < fuel → renderableF fuel obj = true →
      ∀ name mono lines ind path req,
        exOk (parseObjectF p fuel obj name mono lines ind path req) = true) := by
  constructor
  · intro p fuel obj name mono lines ind path req hleaf
    refine ⟨?_, rfl, ?_, ?_⟩
    · cases obj with
      | null => rfl
      | bool x => rfl
      | num x => rfl
      | str x => rfl
      | arr xs => simp [isLeaf] at hleaf
      | obj kvs => simp [isLeaf] at hleaf
    · refine ⟨("Non-object type found in properties list: `" ++ pyStrOptName name ++ ": ").data,
        ("`.").data, ?_⟩
      simp [nonObjectError, String.data_append, List.append_assoc]
    · refine ⟨("Non-object type found in properties list: `").data,
        (": " ++ pyStr obj ++ "`.").data, ?_⟩
      simp [nonObjectError, String.data_append, List.append_assoc]
  · exact fun p fuel obj h1 h2 => parseObjectF_renderable_ok p fuel obj h1 h2

theorem C7_witness :
    parseObjectF ⟨false, "all"⟩ 5 (Json.num 7) (some ("a")) true [] 0 [] false =
        .error (nonObjectError (some ("a")) (Json.num 7)) ∧
    (nonObjectError (some ("a")) (Json.num 7)).cls = "TypeError" ∧
    exOk (parseObjectF ⟨false, "all"⟩ 9 (Json.obj [("type", Json.str "object")])
        none false [] 0 [] false) = true ∧
    parse_object ⟨false, "all"⟩ (Json.obj [("properties", Json.obj [("a", Json.num 7)])]) none =
      .error (nonObjectError (some ("a")) (Json.num 7)) := by
  refine ⟨?_, rfl, ?_, by decide⟩
  · exact ((C7_non_object_type_error.1 ⟨false, "all"⟩ 4 (Json.num 7) (some ("a")) true [] 0 []
      false) (by decide)).1
  · exact C7_non_object_type_error.2 ⟨false, "all"⟩ 9 (Json.obj [("type", Json.str "object")])
      (by decide) (by decide) none false [] 0 [] false

theorem bind_ok_destruct {α β : Type} {e : Except PyError α} {g : α → Except PyError β} {out : β}
    (h : (e >>= g) = .ok out) : ∃ x, e = .ok x ∧ g x = .ok out := by
  cases e with
  | ok x => exact ⟨x, rfl, by simpa [Bind.bind, Except.bind] using h⟩
  | error err => simp [Bind.bind, Except.bind] at h

theorem indent_head_cases (n : Nat) (l : List Char) :
    (List.replicate n ' ' ++ l).head? = if n = 0 then l.head? else some (' ') := by
  cases n <;> simp [List.replicate]

theorem line_head_ne_hash (n : Nat) (c : Char) (l : List Char) (hc : c ≠ '#') :
    (List.replicate n ' ' ++ (c :: l)).head? ≠ some ('#') := by
  rw [indent_head_cases]
  by_cases hn : n = 0 <;> simp [hn, hc]

theorem append_line_no_hash (line : String) (lines : List String)
    (hl : ∀ s ∈ lines, s.data.head? ≠ some ('#'))
    (hline : line.data.head? ≠ some ('#')) :
    ∀ s ∈ append_line line lines, s.data.head? ≠ some ('#') := by
  intro s hs
  have hnl : ("\n" : String).data.head? ≠ some ('#') := by decide
  unfold append_line at hs
  cases hgl : lines.getLast? with
  | none =>
      rw [hgl] at hs
      rcases List.mem_append.mp hs with h | h
      · exact hl s h
      · simp at h
        rw [h]
        exact hline
  | some last =>
      rw [hgl] at hs
      dsimp only at hs
      by_cases hcond : leadingWs last ≠ leadingWs line ∧ isBulletItem last = true
      · rw [if_pos hcond] at hs
        rcases List.mem_append.mp hs with h | h
        · exact hl s h
        · simp at h
          rcases h with h | h
          · rw [h]
            exact hnl
          · rw [h]
            exact hline
      · rw [if_neg hcond] at hs
        rcases List.mem_append.mp hs with h | h
        · exact hl s h
        · simp at h
          rw [h]
          exact hline

theorem foldlM_preserve {α : Type} (P : List String → Prop)
    (f : List String → α → Except PyError (List String)) (xs : List α)
    (hstep : ∀ a ∈ xs, ∀ b b2, P b → f b a = .ok b2 → P b2) :
    ∀ b out, P b → xs.foldlM f b = .ok out → P out := by
  induction xs with
  | nil =>
      intro b out hb h
      simp only [List.foldlM] at h
      obtain rfl : b = out := by
        simpa [pure, Except.pure] using h
      exact hb
  | cons a rest ih =>
      intro b out hb h
      simp only [List.foldlM] at h
      obtain ⟨b2, hfa, h2⟩ := bind_ok_destruct h
      exact ih (fun x hx => hstep x (by simp [hx])) b2 out
        (hstep a (by simp) b b2 hb hfa) h2


theorem construct_examples_no_hash (p : Parser) (objJ : Json) (ind : Nat) (ah : Bool)
    (out : List String) (h : construct_examples p objJ ind ah = .ok out) :
    ∀ s ∈ out, s.data.head? ≠ some ('#') := by
  unfold construct_examples at h
  obtain ⟨found, hpc, h⟩ := bind_ok_destruct h
  by_cases hb : found = true
  · rw [if_pos hb] at h
    obtain ⟨v, hgi, h⟩ := bind_ok_destruct h
    obtain ⟨elems, hie, h⟩ := bind_ok_destruct h
    obtain rfl : _ = out := by simpa [pure, Except.pure] using h
    intro s hs
    rcases List.mem_append.mp hs with hs | hs
    · by_cases hah : ah = true
      · rw [if_pos hah] at hs
        simp at hs
        rw [hs]
        simp [String.data_append]
      · rw [if_neg hah] at hs
        simp at hs
    · obtain ⟨ex, _hex, hs⟩ := List.mem_map.mp hs
      rw [← hs]
      by_cases hy : p.examples_as_yaml = true
      · rw [if_pos hy]
        simp only [String.data_append, indentStr, List.append_assoc]
        rw [indent_head_cases]
        by_cases hn : tab_size * ind = 0 <;> simp [hn]
      · rw [if_neg hy]
        simp only [String.data_append, indentStr, List.append_assoc]
        rw [indent_head_cases]
        by_cases hn : tab_size * ind = 0 <;> simp [hn]
  · rw [if_neg hb] at h
    obtain rfl : ([] : List String) = out := by simpa [pure, Except.pure] using h
    intro s hs
    simp at hs

theorem parseObjectF_no_hash (p : Parser) :
    ∀ fuel obj name mono lines ind path req out,
      parseObjectF p fuel obj name mono lines ind path req = .ok out →
      (∀ s ∈ lines, s.data.head? ≠ some ('#')) →
      ∀ s ∈ out, s.data.head? ≠ some ('#') := by
  intro fuel
  induction fuel with
  | zero =>
      intro obj name mono lines ind path req out h
      exact Except.noConfusion h
  | succ n ih =>
      intro obj name mono lines ind path req out h hl
      cases obj with
      | null => exact Except.noConfusion h
      | bool x => exact Except.noConfusion h
      | num x => exact Except.noConfusion h
      | str x => exact Except.noConfusion h
      | arr xs =>
          simp only [parseObjectF] at h
          refine foldlM_preserve (fun ls => ∀ s ∈ ls, s.data.head? ≠ some ('#')) _ xs ?_ _ out ?_ h
          · intro e _he b b2 hb hstep
            exact ih e none false b (ind + 1) [] false b2 hstep hb
          · apply append_line_no_hash _ _ hl
            simp only [String.data_append, indentStr, List.append_assoc]
            rw [indent_head_cases]
            by_cases hn : tab_size * ind = 0 <;> simp [hn]
      | obj kvs =>
          simp only [parseObjectF] at h
          obtain ⟨dlb, hcd, h⟩ := bind_ok_destruct h
          try dsimp only at h
          obtain ⟨lines1, hf1, h⟩ := bind_ok_destruct h
          obtain ⟨lines2, hf2, h⟩ := bind_ok_destruct h
          obtain ⟨lines3, hf3, h⟩ := bind_ok_destruct h
          obtain ⟨lines4, hf4, h⟩ := bind_ok_destruct h
          have hP1 : ∀ s ∈ lines1, s.data.head? ≠ some ('#') := by
            refine foldlM_preserve (fun ls => ∀ s ∈ ls, s.data.head? ≠ some ('#')) _ _ ?_ _ lines1
              ?_ hf1
            · intro kl _hkl b b2 hb hstep
              cases hj : jfind kvs kl.1 with
              | none =>
                  rw [hj] at hstep
                  obtain rfl : b = b2 := by simpa [pure, Except.pure] using hstep
                  exact hb
              | some v =>
                  rw [hj] at hstep
                  obtain ⟨elems, _hie, hstep⟩ := bind_ok_destruct hstep
                  refine foldlM_preserve (fun ls => ∀ s ∈ ls, s.data.head? ≠ some ('#')) _ _ ?_ _
                    b2 ?_ hstep
                  · intro e _he b3 b4 hb3 hstep3
                    exact ih e none false b3 (ind + 2) [] false b4 hstep3 hb3
                  · apply append_line_no_hash _ _ hb
                    simp only [String.data_append, indentStr, List.append_assoc]
                    rw [indent_head_cases]
                    by_cases hn : tab_size * (ind + 1) = 0 <;> simp [hn]
            · apply append_line_no_hash _ _ hl
              simp only [String.data_append, indentStr, List.append_assoc]
              rw [indent_head_cases]
              by_cases hn : tab_size * ind = 0 <;> simp [hn]
          have hP2 : ∀ s ∈ lines2, s.data.head? ≠ some ('#') := by
            refine foldlM_preserve (fun ls => ∀ s ∈ ls, s.data.head? ≠ some ('#')) _ _ ?_ _ lines2
              ?_ hf2
            · intro k _hk b b2 hb hstep
              cases hj : jfind kvs k with
              | none =>
                  rw [hj] at hstep
                  obtain rfl : b = b2 := by simpa [pure, Except.pure] using hstep
                  exact hb
              | some v =>
                  rw [hj] at hstep
                  exact ih v _ false b (ind + 1) [] false b2 hstep hb
            · exact hP1
          have hP3 : ∀ s ∈ lines3, s.data.head? ≠ some ('#') := by
            refine foldlM_preserve (fun ls => ∀ s ∈ ls, s.data.head? ≠ some ('#')) _ _ ?_ _ lines3
              ?_ hf3
            · intro extra _hextra b b2 hb hstep
              cases hj : jfind kvs (extra ++ "Properties") with
              | none =>
                  rw [hj] at hstep
                  obtain rfl : b = b2 := by simpa [pure, Except.pure] using hstep
                  exact hb
              | some v =>
                  rw [hj] at hstep
                  cases v with
                  | obj sub => exact ih (.obj sub) _ false b (ind + 1) [] false b2 hstep hb
                  | null =>
                      obtain rfl : b = b2 := by simpa [pure, Except.pure] using hstep
                      exact hb
                  | bool y =>
                      obtain rfl : b = b2 := by simpa [pure, Except.pure] using hstep
                      exact hb
                  | num y =>
                      obtain rfl : b = b2 := by simpa [pure, Except.pure] using hstep
                      exact hb
                  | str y =>
                      obtain rfl : b = b2 := by simpa [pure, Except.pure] using hstep
                      exact hb
                  | arr y =>
                      obtain rfl : b = b2 := by simpa [pure, Except.pure] using hstep
                      exact hb
            · exact hP2
          have hP4 : ∀ s ∈ lines4, s.data.head? ≠ some ('#') := by
            refine foldlM_preserve (fun ls => ∀ s ∈ ls, s.data.head? ≠ some ('#')) _ _ ?_ _ lines4
              ?_ hf4
            · intro pname _hp b b2 hb hstep
              cases hj : jfind kvs pname with
              | none =>
                  rw [hj] at hstep
                  obtain rfl : b = b2 := by simpa [pure, Except.pure] using hstep
                  exact hb
              | some v =>
                  rw [hj] at hstep
                  cases v with
                  | obj children =>
                      refine foldlM_preserve (fun ls => ∀ s ∈ ls, s.data.head? ≠ some ('#')) _ _
                        ?_ _ b2 ?_ hstep
                      · intro kv _hkv b3 b4 hb3 hstep3
                        obtain ⟨rq, _hrq, hstep3⟩ := bind_ok_destruct hstep3
                        exact ih kv.2 _ true b3 (ind + 1) [] rq b4 hstep3 hb3
                      · exact hb
                  | null => exact Except.noConfusion hstep
                  | bool y => exact Except.noConfusion hstep
                  | num y => exact Except.noConfusion hstep
                  | str y => exact Except.noConfusion hstep
                  | arr y => exact Except.noConfusion hstep
            · exact hP3
          by_cases hcond : (p.show_examples = "all" ∨ p.show_examples = "properties")
          · rw [if_pos hcond] at h
            obtain ⟨ex, hex, h⟩ := bind_ok_destruct h
            obtain rfl : _ = out := by simpa [pure, Except.pure] using h
            intro s hs
            rcases List.mem_append.mp hs with hs | hs
            · exact hP4 s hs
            · exact construct_examples_no_hash p (.obj kvs) ind true ex hex s hs
          · rw [if_neg hcond] at h
            obtain rfl : lines4 = out := by simpa [pure, Except.pure] using h
            exact hP4

theorem count_single_zero (a x : String) (h : a ≠ x) : List.count a [x] = 0 := by
  rw [List.count_eq_zero]
  simpa using h

theorem count_hdr_zero_of_no_hash (l : List String)
    (h : ∀ s ∈ l, s.data.head? ≠ some ('#')) :
    l.count ("## Properties\n\n") = 0 := by
  rw [List.count_eq_zero]
  intro hmem
  exact absurd (by decide : ("## Properties\n\n" : String).data.head? = some ('#')) (h _ hmem)

theorem title_ne_props_header (t : Json) :
    ("## Properties\n\n" : String) ≠ "# " ++ pyStr t ++ "\n\n" := by
  intro h
  have h2 := congrArg String.data h
  simp [String.data_append] at h2

theorem desc_ne_props_header (t : Json) :
    ("## Properties\n\n" : String) ≠ "*" ++ pyStr t ++ "*\n\n" := by
  intro h
  have h2 := congrArg String.data h
  simp [String.data_append] at h2

theorem titleSection_count (master : Json) (part : List String)
    (h : titleSection master = .ok part) :
    part.count ("## Properties\n\n") = 0 := by
  unfold titleSection at h
  obtain ⟨b, _hb, h⟩ := bind_ok_destruct h
  by_cases hbt : b = true
  · rw [if_pos hbt] at h
    obtain ⟨t, _ht, h⟩ := bind_ok_destruct h
    obtain rfl : _ = part := by simpa [pure, Except.pure] using h
    exact count_single_zero _ _ (title_ne_props_header t)
  · rw [if_neg hbt] at h
    obtain rfl : _ = part := by simpa [pure, Except.pure] using h
    decide

theorem descriptionSection_count (master : Json) (part : List String)
    (h : descriptionSection master = .ok part) :
    part.count ("## Properties\n\n") = 0 := by
  unfold descriptionSection at h
  obtain ⟨b, _hb, h⟩ := bind_ok_destruct h
  by_cases hbt : b = true
  · rw [if_pos hbt] at h
    obtain ⟨t, _ht, h⟩ := bind_ok_destruct h
    obtain rfl : _ = part := by simpa [pure, Except.pure] using h
    exact count_single_zero _ _ (desc_ne_props_header t)
  · rw [if_neg hbt] at h
    obtain rfl : ([] : List String) = part := by simpa [pure, Except.pure] using h
    rfl

theorem itemsSection_count (p : Parser) (fuel : Nat) (master : Json) (part : List String)
    (h : itemsSection p fuel master = .ok part) :
    part.count ("## Properties\n\n") = 0 := by
  unfold itemsSection at h
  obtain ⟨groups, _hg, h⟩ := bind_ok_destruct h
  cases groups with
  | nil =>
      obtain rfl : ([] : List String) = part := by simpa [pure, Except.pure] using h
      rfl
  | cons g gs =>
      obtain ⟨rendered, hr, h⟩ := bind_ok_destruct h
      obtain rfl : _ = part := by simpa [pure, Except.pure] using h
      have hnh : ∀ s ∈ rendered, s.data.head? ≠ some ('#') := by
        refine foldlM_preserve (fun ls => ∀ s ∈ ls, s.data.head? ≠ some ('#')) _ _ ?_ _ rendered
          ?_ hr
        · intro so _hso b b2 hb hstep
          obtain ⟨nl, hnl, hstep⟩ := bind_ok_destruct hstep
          obtain rfl : b ++ nl = b2 := by simpa [pure, Except.pure] using hstep
          intro s hs
          rcases List.mem_append.mp hs with hs | hs
          · exact hb s hs
          · exact parseObjectF_no_hash p fuel so _ false [] 0 [] false nl hnl (by simp) s hs
        · intro s hs
          exact absurd hs (List.not_mem_nil s)
      simp [List.count_append, List.count_cons, count_hdr_zero_of_no_hash rendered hnh]

theorem extraSection_count (p : Parser) (fuel : Nat) (master : Json) (part : List String)
    (h : extraSection p fuel master = .ok part) :
    part.count ("## Properties\n\n") = 0 := by
  unfold extraSection at h
  refine foldlM_preserve (fun ls => ls.count ("## Properties\n\n") = 0) _ _ ?_ _ part ?_ h
  · intro extra hextra b b2 hb hstep
    try dsimp only at hstep
    obtain ⟨found, _hf, hstep⟩ := bind_ok_destruct hstep
    by_cases hft : found = true
    · rw [if_pos hft] at hstep
      obtain ⟨v, _hv, hstep⟩ := bind_ok_destruct hstep
      cases v with
      | obj sub =>
          obtain ⟨nl, hnl, hstep⟩ := bind_ok_destruct hstep
          have hnlc := count_hdr_zero_of_no_hash nl
            (parseObjectF_no_hash p fuel (.obj sub) _ false [] 0 [] false nl hnl (by simp))
          obtain rfl : _ = b2 := by simpa [pure, Except.pure] using hstep
          fin_cases hextra
          · have hcap : pyCapitalize ("additional") = "Additional" := by decide
            simp [List.count_append, List.count_cons, hb, hnlc, hcap]
          · have hcap : pyCapitalize ("unevaluated") = "Unevaluated" := by decide
            simp [List.count_append, List.count_cons, hb, hnlc, hcap]
      | null =>
          obtain rfl : b = b2 := by simpa [pure, Except.pure] using hstep
          exact hb
      | bool y =>
          obtain rfl : b = b2 := by simpa [pure, Except.pure] using hstep
          exact hb
      | num y =>
          obtain rfl : b = b2 := by simpa [pure, Except.pure] using hstep
          exact hb
      | str y =>
          obtain rfl : b = b2 := by simpa [pure, Except.pure] using hstep
          exact hb
      | arr y =>
          obtain rfl : b = b2 := by simpa [pure, Except.pure] using hstep
          exact hb
    · rw [if_neg hft] at hstep
      obtain rfl : b = b2 := by simpa [pure, Except.pure] using hstep
      exact hb
  · rfl

theorem patternSection_count (p : Parser) (fuel : Nat) (master : Json) (part : List String)
    (h : patternSection p fuel master = .ok part) :
    part.count ("## Properties\n\n") = 0 := by
  unfold patternSection at h
  obtain ⟨groups, _hg, h⟩ := bind_ok_destruct h
  cases groups with
  | nil =>
      obtain rfl : ([] : List String) = part := by simpa [pure, Except.pure] using h
      rfl
  | cons g gs =>
      obtain ⟨rendered, hr, h⟩ := bind_ok_destruct h
      obtain rfl : _ = part := by simpa [pure, Except.pure] using h
      have hnh : ∀ s ∈ rendered, s.data.head? ≠ some ('#') := by
        refine foldlM_preserve (fun ls => ∀ s ∈ ls, s.data.head? ≠ some ('#')) _ _ ?_ _ rendered
          ?_ hr
        · intro so _hso b b2 hb hstep
          cases so with
          | obj items =>
              refine foldlM_preserve (fun ls => ∀ s ∈ ls, s.data.head? ≠ some ('#')) _ _ ?_ _ b2
                ?_ hstep
              · intro kv _hkv b3 b4 hb3 hstep3
                obtain ⟨nl, hnl, hstep3⟩ := bind_ok_destruct hstep3
                obtain rfl : b3 ++ nl = b4 := by simpa [pure, Except.pure] using hstep3
                intro s hs
                rcases List.mem_append.mp hs with hs | hs
                · exact hb3 s hs
                · exact parseObjectF_no_hash p fuel kv.2 _ true [] 0 [] false nl hnl (by simp) s hs
              · exact hb
          | null => exact Except.noConfusion hstep
          | bool y => exact Except.noConfusion hstep
          | num y => exact Except.noConfusion hstep
          | str y => exact Except.noConfusion hstep
          | arr y => exact Except.noConfusion hstep
        · intro s hs
          exact absurd hs (List.not_mem_nil s)
      simp [List.count_append, List.count_cons, count_hdr_zero_of_no_hash rendered hnh]

theorem propertiesSection_count (p : Parser) (fuel : Nat) (master : Json)
    (groups : List Json) (part : List String)
    (hg : gather_propsF fuel master ("properties") = .ok groups)
    (h : propertiesSection p fuel master = .ok part) :
    part.count ("## Properties\n\n") = (if groups.isEmpty then 0 else 1) := by
  unfold propertiesSection at h
  obtain ⟨groups2, hg2, h⟩ := bind_ok_destruct h
  rw [hg] at hg2
  injection hg2 with hgg
  subst hgg
  cases groups with
  | nil =>
      obtain rfl : ([] : List String) = part := by simpa [pure, Except.pure] using h
      rfl
  | cons g gs =>
      obtain ⟨rendered, hr, h⟩ := bind_ok_destruct h
      obtain rfl : _ = part := by simpa [pure, Except.pure] using h
      have hnh : ∀ s ∈ rendered, s.data.head? ≠ some ('#') := by
        refine foldlM_preserve (fun ls => ∀ s ∈ ls, s.data.head? ≠ some ('#')) _ _ ?_ _ rendered
          ?_ hr
        · intro so _hso b b2 hb hstep
          cases so with
          | obj items =>
              refine foldlM_preserve (fun ls => ∀ s ∈ ls, s.data.head? ≠ some ('#')) _ _ ?_ _ b2
                ?_ hstep
              · intro kv _hkv b3 b4 hb3 hstep3
                obtain ⟨rq, _hrq, hstep3⟩ := bind_ok_destruct hstep3
                obtain ⟨nl, hnl, hstep3⟩ := bind_ok_destruct hstep3
                obtain rfl : b3 ++ nl = b4 := by simpa [pure, Except.pure] using hstep3
                intro s hs
                rcases List.mem_append.mp hs with hs | hs
                · exact hb3 s hs
                · exact parseObjectF_no_hash p fuel kv.2 _ true [] 0 [] rq nl hnl (by simp) s hs
              · exact hb
          | null => exact Except.noConfusion hstep
          | bool y => exact Except.noConfusion hstep
          | num y => exact Except.noConfusion hstep
          | str y => exact Except.noConfusion hstep
          | arr y => exact Except.noConfusion hstep
        · intro s hs
          exact absurd hs (List.not_mem_nil s)
      simp [List.count_append, List.count_cons, count_hdr_zero_of_no_hash rendered hnh]

theorem definitionsSection_count (p : Parser) (fuel : Nat) (master : Json) (part : List String)
    (h : definitionsSection p fuel master = .ok part) :
    part.count ("## Properties\n\n") = 0 := by
  unfold definitionsSection at h
  refine foldlM_preserve (fun ls => ls.count ("## Properties\n\n") = 0) _ _ ?_ _ part ?_ h
  · intro dname _hd b b2 hb hstep
    obtain ⟨found, _hf, hstep⟩ := bind_ok_destruct hstep
    by_cases hft : found = true
    · rw [if_pos hft] at hstep
      obtain ⟨v, _hv, hstep⟩ := bind_ok_destruct hstep
      cases v with
      | obj items =>
          refine foldlM_preserve (fun ls => ls.count ("## Properties\n\n") = 0) _ _ ?_ _ b2
            ?_ hstep
          · intro kv _hkv b3 b4 hb3 hstep3
            obtain ⟨nl, hnl, hstep3⟩ := bind_ok_destruct hstep3
            obtain rfl : b3 ++ nl = b4 := by simpa [pure, Except.pure] using hstep3
            simp [List.count_append, hb3, count_hdr_zero_of_no_hash nl
              (parseObjectF_no_hash p fuel kv.2 _ true [] 0 [dname, kv.1] false nl hnl (by simp))]
          · exact hb
      | null => exact Except.noConfusion hstep
      | bool y => exact Except.noConfusion hstep
      | num y => exact Except.noConfusion hstep
      | str y => exact Except.noConfusion hstep
      | arr y => exact Except.noConfusion hstep
    · rw [if_neg hft] at hstep
      obtain rfl : b = b2 := by simpa [pure, Except.pure] using hstep
      exact hb
  · rfl

theorem examplesSection_count (p : Parser) (master : Json) (part : List String)
    (h : examplesSection p master = .ok part) :
    part.count ("## Properties\n\n") = 0 := by
  unfold examplesSection at h
  obtain ⟨found, _hf, h⟩ := bind_ok_destruct h
  by_cases hc : (found = true ∧ (p.show_examples = "all" ∨ p.show_examples = "object"))
  · rw [if_pos hc] at h
    obtain ⟨ex, hex, h⟩ := bind_ok_destruct h
    obtain rfl : _ = part := by simpa [pure, Except.pure] using h
    simp [List.count_append, List.count_cons,
      count_hdr_zero_of_no_hash ex (construct_examples_no_hash p master 0 false ex hex)]
  · rw [if_neg hc] at h
    obtain rfl : ([] : List String) = part := by simpa [pure, Except.pure] using h
    rfl

/-- C4, confirmed: (1) whenever `parse_schema` succeeds, the output
contains the `## Properties` header exactly once if the `allOf`-transitive
gathering of `properties` is non-empty and never otherwise; (2) the root
`allOf: [{properties: {a}}, {properties: {b}}]` example yields one header
followed by the entries for `a` then `b`, in branch order. -/
theorem C4_allof_properties_header :
    (∀ (p : Parser) (fuel : Nat) (master : Json) (groups : List Json) (out : List String),
      gather_propsF fuel master ("properties") = .ok groups →
      parse_schemaF p fuel master = .ok out →
      out.count ("## Properties\n\n") = (if groups.isEmpty then 0 else 1)) ∧
    parse_schema ⟨false, "all"⟩
        (Json.obj [("allOf", Json.arr
          [Json.obj [("properties", Json.obj [("a", Json.obj [])])],
           Json.obj [("properties", Json.obj [("b", Json.obj [])])]])]) =
      .ok ["# JSON Schema\n\n", "## Properties\n\n", "- **`a`**\n", "- **`b`**\n"] := by
  constructor
  · intro p fuel master groups out hg h
    unfold parse_schemaF at h
    obtain ⟨titlePart, hts, h⟩ := bind_ok_destruct h
    obtain ⟨descPart, hds, h⟩ := bind_ok_destruct h
    obtain ⟨itemsPart, his, h⟩ := bind_ok_destruct h
    obtain ⟨extraPart, hes, h⟩ := bind_ok_destruct h
    obtain ⟨patPart, hps, h⟩ := bind_ok_destruct h
    obtain ⟨propsPart, hpr, h⟩ := bind_ok_destruct h
    obtain ⟨defsPart, hdf, h⟩ := bind_ok_destruct h
    obtain ⟨exPart, hep, h⟩ := bind_ok_destruct h
    obtain rfl : _ = out := by simpa [pure, Except.pure] using h
    simp only [List.count_append]
    rw [titleSection_count master titlePart hts,
      descriptionSection_count master descPart hds,
      itemsSection_count p fuel master itemsPart his,
      extraSection_count p fuel master extraPart hes,
      patternSection_count p fuel master patPart hps,
      propertiesSection_count p fuel master groups propsPart hg hpr,
      definitionsSection_count p fuel master defsPart hdf,
      examplesSection_count p master exPart hep]
    omega
  · decide

theorem C4_witness :
    (["# JSON Schema\n\n", "## Properties\n\n", "- **`a`**\n", "- **`b`**\n"].count
        ("## Properties\n\n")) =
      (if ([Json.obj [("a", Json.obj [])], Json.obj [("b", Json.obj [])]] : List Json).isEmpty
        then 0 else 1) := by
  refine C4_allof_properties_header.1 ⟨false, "all"⟩
    (jsize (Json.obj [("allOf", Json.arr
      [Json.obj [("properties", Json.obj [("a", Json.obj [])])],
       Json.obj [("properties", Json.obj [("b", Json.obj [])])]])]) + 1)
    (Json.obj [("allOf", Json.arr
      [Json.obj [("properties", Json.obj [("a", Json.obj [])])],
       Json.obj [("properties", Json.obj [("b", Json.obj [])])]])])
    ([Json.obj [("a", Json.obj [])], Json.obj [("b", Json.obj [])]])
    (["# JSON Schema\n\n", "## Properties\n\n", "- **`a`**\n", "- **`b`**\n"]) rfl (by decide)
